import Mathlib

/-!
Verification of the data-mutation and consistency layer of the winxp-board
bulletin-board application: category administration (add / update / delete /
reorder against the singleton settings document), the retry/backoff wrappers,
transactional comment-count maintenance, bookmark uniqueness, post update and
move, admin-session gating, and JSON backup/restore with timestamp conversion.

The definitions below are shallow embeddings of the TypeScript source
(`src/services/admin/categories.ts`, `src/services/firebase/firestore.ts`,
`src/services/admin/auth.ts`, `src/services/admin/backup.ts`).  The remote
document store is modelled as explicit association-list state; asynchronous
store calls that can fail are modelled with `Except` and, where retry loops
observe per-attempt outcomes, with an attempt-indexed oracle.  Firestore
`Timestamp` values are modelled by their calendar components at millisecond
precision (`Timestamp.toDate().toISOString()` exposes exactly that much).
-/

/-! ### Decimal digit strings

`Date.prototype.toISOString` renders each timestamp component as a fixed-width
zero-padded decimal number.  `padNum k n` is the width-`k` zero-padded decimal
rendering of `n % 10 ^ k`, most significant digit first; `readN k acc cs`
consumes exactly `k` decimal digits from the front of `cs`.
-/

/-- Numeric value of a decimal digit character. -/
def digitVal (c : Char) : Nat := c.toNat - 48

/-- Width-`k` zero-padded decimal rendering of `n % 10 ^ k`, high digit first. -/
def padNum : Nat → Nat → List Char
  | 0, _ => []
  | k + 1, n => Char.ofNat (48 + n / 10 ^ k % 10) :: padNum k n

/-- Consume exactly `k` decimal digits from the front of `cs`, accumulating
their value onto `acc`; fails if a non-digit is met early. -/
def readN : Nat → Nat → List Char → Option (Nat × List Char)
  | 0, acc, cs => some (acc, cs)
  | _ + 1, _, [] => none
  | k + 1, acc, c :: cs =>
    if c.isDigit then readN k (10 * acc + digitVal c) cs else none

theorem isDigit_digitChar {r : Nat} (h : r < 10) :
    (Char.ofNat (48 + r)).isDigit = true := by
  interval_cases r <;> decide

theorem digitVal_digitChar {r : Nat} (h : r < 10) :
    digitVal (Char.ofNat (48 + r)) = r := by
  interval_cases r <;> decide

theorem readN_padNum (k : Nat) : ∀ (n acc : Nat) (rest : List Char),
    readN k acc (padNum k n ++ rest) = some (acc * 10 ^ k + n % 10 ^ k, rest) := by
  induction k with
  | zero => intro n acc rest; simp [padNum, readN, Nat.mod_one]
  | succ k ih =>
    intro n acc rest
    have hr : n / 10 ^ k % 10 < 10 := Nat.mod_lt _ (by norm_num)
    have step : readN (k + 1) acc (padNum (k + 1) n ++ rest) =
        readN k (10 * acc + digitVal (Char.ofNat (48 + n / 10 ^ k % 10)))
          (padNum k n ++ rest) := by
      simp [padNum, readN, isDigit_digitChar hr]
    rw [step, digitVal_digitChar hr, ih]
    have hmod : n % 10 ^ (k + 1) = n % 10 ^ k + 10 ^ k * (n / 10 ^ k % 10) := by
      rw [pow_succ, Nat.mod_mul]
    congr 2
    rw [hmod, pow_succ]
    ring

/-! ### Calendar timestamps and ISO-8601 strings

A `Ts` is a store timestamp as exposed by `toISOString`: calendar components
down to milliseconds (UTC).  `validTs` captures the component ranges a real
`Date` produces; the sub-millisecond precision Firestore keeps internally is
the "timestamp normalization" the backup/restore round trip is allowed.
-/

/-- Calendar timestamp at millisecond precision (UTC), the shape rendered by
`Timestamp.toDate().toISOString()`. -/
structure Ts where
  year : Nat
  month : Nat
  day : Nat
  hour : Nat
  minute : Nat
  second : Nat
  milli : Nat
deriving DecidableEq, Repr

/-- Number of days in a month of a given year (proleptic Gregorian). -/
def daysInMonth (y m : Nat) : Nat :=
  if m = 2 then
    if y % 4 = 0 && (y % 100 ≠ 0 || y % 400 = 0) then 29 else 28
  else if m = 4 || m = 6 || m = 9 || m = 11 then 30
  else 31

/-- Component ranges of a timestamp that a JavaScript `Date` accepts and that
`toISOString` renders with 4-digit year. -/
def validTs (t : Ts) : Bool :=
  t.year < 10000 && decide (1 ≤ t.month) && t.month ≤ 12 &&
  decide (1 ≤ t.day) && t.day ≤ daysInMonth t.year t.month &&
  t.hour < 24 && t.minute < 60 && t.second < 60 && t.milli < 1000

/-- Characters of the ISO-8601 rendering `YYYY-MM-DDTHH:mm:ss.sssZ` produced by
`Date.prototype.toISOString`. -/
def renderIsoChars (t : Ts) : List Char :=
  padNum 4 t.year ++ ('-' :: (padNum 2 t.month ++ ('-' :: (padNum 2 t.day ++
  ('T' :: (padNum 2 t.hour ++ (':' :: (padNum 2 t.minute ++ (':' :: (padNum 2 t.second ++
  ('.' :: (padNum 3 t.milli ++ ['Z']))))))))))))

/-- ISO-8601 rendering of a timestamp as a string. -/
def renderIso (t : Ts) : String := String.mk (renderIsoChars t)

/-- Expect a specific character at the head of the list. -/
def expectChar (c : Char) : List Char → Option (List Char)
  | [] => none
  | c' :: r => if c' = c then some r else none

/-- Read a fixed-width fractional-seconds run: `k` digits then `Z`, scaled by
`scale` to milliseconds the way `Date` scales a fraction of a second. -/
def fracWidth (k scale : Nat) (cs : List Char) : Option Nat :=
  match readN k 0 cs with
  | some (v, r) => if r = ['Z'] then some (v * scale) else none
  | none => none

/-- Parse the optional fractional-seconds part of the ISO pattern
`(?:\.\d{1,3})?Z$`: one to three digits then `Z`. -/
def parseFrac (cs : List Char) : Option Nat :=
  (fracWidth 3 1 cs).orElse fun _ =>
    (fracWidth 2 10 cs).orElse fun _ => fracWidth 1 100 cs

/-- Parse exactly the language of the backup module's ISO-8601 regex
`^\d{4}-\d{2}-\d{2}T\d{2}:\d{2}:\d{2}(?:\.\d{1,3})?Z$` into components.
Shape only; calendar validity is checked separately (`jsDateParse`). -/
def parseIsoChars (cs : List Char) : Option Ts := do
  let (y, r) ← readN 4 0 cs
  let r ← expectChar '-' r
  let (mo, r) ← readN 2 0 r
  let r ← expectChar '-' r
  let (d, r) ← readN 2 0 r
  let r ← expectChar 'T' r
  let (h, r) ← readN 2 0 r
  let r ← expectChar ':' r
  let (mi, r) ← readN 2 0 r
  let r ← expectChar ':' r
  let (s, r) ← readN 2 0 r
  if r = ['Z'] then
    some ⟨y, mo, d, h, mi, s, 0⟩
  else do
    let r ← expectChar '.' r
    let ms ← parseFrac r
    some ⟨y, mo, d, h, mi, s, ms⟩

/-- Test of the backup module's ISO-8601 detection regex
`/^\d{4}-\d{2}-\d{2}T\d{2}:\d{2}:\d{2}(?:\.\d{1,3})?Z$/` on a string. -/
def isIsoString (s : String) : Bool := (parseIsoChars s.data).isSome

/-- Modelling of `new Date(s)` followed by `Timestamp.fromDate` restricted to
the ISO shapes this codebase itself produces: parse the ISO pattern, then
reject calendar-invalid components the way `Date` yields `Invalid Date`.
Non-ISO date formats that a browser `Date` would also accept are modelled as
unparseable; the theorems below never evaluate this on such inputs. -/
def jsDateParse (s : String) : Option Ts := do
  let t ← parseIsoChars s.data
  if validTs t then some t else none

theorem parseIsoChars_render {t : Ts} (h : validTs t = true) :
    parseIsoChars (renderIsoChars t) = some t := by
  simp only [validTs, Bool.and_eq_true, decide_eq_true_eq] at h
  obtain ⟨⟨⟨⟨⟨⟨⟨⟨hy, _⟩, hmo⟩, _⟩, hd⟩, hh⟩, hmi⟩, hs⟩, hms⟩ := h
  have hd31 : t.day ≤ 31 := by
    have : daysInMonth t.year t.month ≤ 31 := by
      unfold daysInMonth
      repeat' split
      all_goals omega
    omega
  have p4 : (10 : Nat) ^ 4 = 10000 := by norm_num
  have p2 : (10 : Nat) ^ 2 = 100 := by norm_num
  have p3 : (10 : Nat) ^ 3 = 1000 := by norm_num
  have hy' : t.year % 10 ^ 4 = t.year := Nat.mod_eq_of_lt (by omega)
  have hmo' : t.month % 10 ^ 2 = t.month := Nat.mod_eq_of_lt (by omega)
  have hd' : t.day % 10 ^ 2 = t.day := Nat.mod_eq_of_lt (by omega)
  have hh' : t.hour % 10 ^ 2 = t.hour := Nat.mod_eq_of_lt (by omega)
  have hmi' : t.minute % 10 ^ 2 = t.minute := Nat.mod_eq_of_lt (by omega)
  have hs' : t.second % 10 ^ 2 = t.second := Nat.mod_eq_of_lt (by omega)
  have hms' : t.milli % 10 ^ 3 = t.milli := Nat.mod_eq_of_lt (by omega)
  have hfrac : parseFrac (padNum 3 t.milli ++ ['Z']) = some t.milli := by
    unfold parseFrac fracWidth
    rw [readN_padNum]
    simp only [Nat.zero_mul, Nat.zero_add, hms']
    simp
  unfold parseIsoChars renderIsoChars
  rw [readN_padNum]
  simp only [Nat.zero_mul, Nat.zero_add, Option.bind_eq_bind, Option.some_bind,
    expectChar, hy', ite_true, if_true]
  rw [readN_padNum]
  simp only [Nat.zero_mul, Nat.zero_add, Option.some_bind, expectChar, hmo',
    ite_true, if_true]
  rw [readN_padNum]
  simp only [Nat.zero_mul, Nat.zero_add, Option.some_bind, expectChar, hd',
    ite_true, if_true]
  rw [readN_padNum]
  simp only [Nat.zero_mul, Nat.zero_add, Option.some_bind, expectChar, hh',
    ite_true, if_true]
  rw [readN_padNum]
  simp only [Nat.zero_mul, Nat.zero_add, Option.some_bind, expectChar, hmi',
    ite_true, if_true]
  rw [readN_padNum]
  simp only [Nat.zero_mul, Nat.zero_add, Option.some_bind, expectChar, hs',
    ite_true, if_true]
  simp only [hfrac, Option.some_bind]
  simp

theorem jsDateParse_render {t : Ts} (h : validTs t = true) :
    jsDateParse (renderIso t) = some t := by
  unfold jsDateParse renderIso
  simp [parseIsoChars_render h, h]

theorem isIsoString_render {t : Ts} (h : validTs t = true) :
    isIsoString (renderIso t) = true := by
  unfold isIsoString renderIso
  simp [parseIsoChars_render h]

/-! ### Document values

Documents in the store are maps from field names to JSON-like values that may
additionally hold store timestamps (`Ts`).  `Fields` is a document body as an
association list in document order; JavaScript objects cannot repeat keys, so
the well-formedness predicates below require `nodupKeys`.
-/

/-- JSON-like document value. `vts` is a store `Timestamp`; `vnull` is JSON
null. -/
inductive Value where
  | vnull
  | vbool (b : Bool)
  | vnum (n : Int)
  | vstr (s : String)
  | vts (t : Ts)
  | varr (xs : List Value)
  | vobj (fs : List (String × Value))

/-- Body of a document: named fields in document order. -/
abbrev Fields := List (String × Value)

/-- Look an entry up by key (first occurrence).  Used both for object fields
and for documents of a collection keyed by document id. -/
def lookupField {α : Type} : List (String × α) → String → Option α
  | [], _ => none
  | (k, v) :: fs, key => if k = key then some v else lookupField fs key

/-- Set an entry: replace the first occurrence in place, else append, exactly
like JavaScript property assignment on an (ordered) object and like `setDoc`
on a collection. -/
def setField {α : Type} : List (String × α) → String → α → List (String × α)
  | [], key, v => [(key, v)]
  | (k, w) :: fs, key, v =>
    if k = key then (k, v) :: fs else (k, w) :: setField fs key v

/-- Delete an entry by key, like the JavaScript `delete` operator. -/
def removeField {α : Type} : List (String × α) → String → List (String × α)
  | [], _ => []
  | (k, v) :: fs, key =>
    if k = key then removeField fs key else (k, v) :: removeField fs key

/-- Object spread `{...d, ...upd}`: assign every entry of `upd` onto `d` in
order. -/
def mergeFields {α : Type} (d upd : List (String × α)) : List (String × α) :=
  upd.foldl (fun acc kv => setField acc kv.1 kv.2) d

/-- Keys of an association list, in order. -/
def fieldKeys {α : Type} (fs : List (String × α)) : List String :=
  fs.map Prod.fst

/-- Keys are pairwise distinct (JavaScript objects cannot repeat keys, and a
collection cannot repeat a document id). -/
def nodupKeys {α : Type} : List (String × α) → Bool
  | [] => true
  | (k, _) :: fs => (lookupField fs k).isNone && nodupKeys fs

theorem lookupField_setField_self {α : Type} (fs : List (String × α))
    (k : String) (v : α) : lookupField (setField fs k v) k = some v := by
  induction fs with
  | nil => simp [setField, lookupField]
  | cons hd tl ih =>
    obtain ⟨k', w⟩ := hd
    by_cases h : k' = k
    · simp [setField, h, lookupField]
    · simp [setField, h, lookupField, ih]

theorem lookupField_setField_ne {α : Type} (fs : List (String × α))
    {k key : String} (v : α) (h : key ≠ k) :
    lookupField (setField fs k v) key = lookupField fs key := by
  have hk : k ≠ key := h.symm
  induction fs with
  | nil => simp [setField, lookupField, hk]
  | cons hd tl ih =>
    obtain ⟨k', w⟩ := hd
    by_cases h' : k' = k
    · subst h'
      simp [setField, lookupField, hk]
    · simp [setField, h', lookupField, ih]

theorem lookupField_removeField_self {α : Type} (fs : List (String × α))
    (k : String) : lookupField (removeField fs k) k = none := by
  induction fs with
  | nil => simp [removeField, lookupField]
  | cons hd tl ih =>
    obtain ⟨k', w⟩ := hd
    by_cases h : k' = k
    · simpa [removeField, h] using ih
    · simp [removeField, h, lookupField, ih]

theorem lookupField_removeField_ne {α : Type} (fs : List (String × α))
    {k key : String} (h : key ≠ k) :
    lookupField (removeField fs k) key = lookupField fs key := by
  have hk : k ≠ key := h.symm
  induction fs with
  | nil => simp [removeField, lookupField]
  | cons hd tl ih =>
    obtain ⟨k', w⟩ := hd
    by_cases h' : k' = k
    · subst h'
      simp [removeField, lookupField, hk, ih]
    · simp [removeField, h', lookupField, ih]

theorem lookupField_mergeFields_of_none {α : Type} (d : List (String × α)) :
    ∀ upd : List (String × α), ∀ {k : String}, lookupField upd k = none →
    lookupField (mergeFields d upd) k = lookupField d k := by
  intro upd
  induction upd generalizing d with
  | nil => intro k _; rfl
  | cons hd tl ih =>
    intro k h
    obtain ⟨k₁, v₁⟩ := hd
    simp only [lookupField] at h
    by_cases h₁ : k₁ = k
    · simp [h₁] at h
    · simp only [mergeFields, List.foldl_cons]
      have := ih (d := setField d k₁ v₁) (by simpa [h₁] using h)
      simpa [mergeFields, lookupField_setField_ne _ _ (fun e => h₁ e.symm)]
        using this

theorem lookupField_mergeFields_of_some {α : Type} (d : List (String × α)) :
    ∀ upd : List (String × α), ∀ {k : String} {v : α}, nodupKeys upd = true →
    lookupField upd k = some v →
    lookupField (mergeFields d upd) k = some v := by
  intro upd
  induction upd generalizing d with
  | nil => intro k v _ h; simp [lookupField] at h
  | cons hd tl ih =>
    intro k v hnd h
    obtain ⟨k₁, v₁⟩ := hd
    simp only [nodupKeys, Bool.and_eq_true, Option.isNone_iff_eq_none] at hnd
    by_cases h₁ : k₁ = k
    · subst h₁
      simp [lookupField] at h
      obtain rfl := h
      simp only [mergeFields, List.foldl_cons]
      have := lookupField_mergeFields_of_none (setField d k₁ v₁) tl hnd.1
      simpa [mergeFields, lookupField_setField_self] using this
    · simp only [lookupField, if_neg h₁] at h
      simp only [mergeFields, List.foldl_cons]
      exact ih (setField d k₁ v₁) hnd.2 h

theorem setField_eq_append {α : Type} {fs : List (String × α)} {k : String}
    (v : α) (h : lookupField fs k = none) : setField fs k v = fs ++ [(k, v)] := by
  induction fs with
  | nil => simp [setField]
  | cons hd tl ih =>
    obtain ⟨k', w⟩ := hd
    simp only [lookupField] at h
    by_cases h' : k' = k
    · simp [h'] at h
    · simp only [setField, if_neg h', List.cons_append, List.cons.injEq, true_and]
      exact ih (by simpa [h'] using h)

theorem removeField_eq_self {α : Type} {fs : List (String × α)} {k : String}
    (h : lookupField fs k = none) : removeField fs k = fs := by
  induction fs with
  | nil => simp [removeField]
  | cons hd tl ih =>
    obtain ⟨k', w⟩ := hd
    simp only [lookupField] at h
    by_cases h' : k' = k
    · simp [h'] at h
    · simp only [removeField, if_neg h', List.cons.injEq, true_and]
      exact ih (by simpa [h'] using h)

theorem lookupField_isSome_of_mem {α : Type} {fs : List (String × α)}
    {p : String × α} (h : p ∈ fs) : (lookupField fs p.1).isSome = true := by
  induction fs with
  | nil => simp at h
  | cons hd tl ih =>
    obtain ⟨k', w⟩ := hd
    rcases List.mem_cons.mp h with h | h
    · subst h; simp [lookupField]
    · by_cases h' : k' = p.1
      · simp [lookupField, h']
      · simp [lookupField, h', ih h]

theorem lookupField_append {α : Type} (a b : List (String × α)) (k : String) :
    lookupField (a ++ b) k =
      match lookupField a k with
      | some v => some v
      | none => lookupField b k := by
  induction a with
  | nil => simp [lookupField]
  | cons hd tl ih =>
    obtain ⟨k', w⟩ := hd
    by_cases h : k' = k
    · simp [lookupField, h]
    · simp [lookupField, h, ih]

theorem mergeFields_eq_append {α : Type} :
    ∀ upd d : List (String × α), nodupKeys upd = true →
    (∀ p ∈ upd, lookupField d p.1 = none) → mergeFields d upd = d ++ upd := by
  intro upd
  induction upd with
  | nil => intro d _ _; simp [mergeFields]
  | cons hd tl ih =>
    intro d hnd hdisj
    obtain ⟨k₁, v₁⟩ := hd
    simp only [nodupKeys, Bool.and_eq_true, Option.isNone_iff_eq_none] at hnd
    have hset : setField d k₁ v₁ = d ++ [(k₁, v₁)] :=
      setField_eq_append v₁ (hdisj (k₁, v₁) (List.mem_cons_self _ _))
    have hdisj' : ∀ p ∈ tl, lookupField (d ++ [(k₁, v₁)]) p.1 = none := by
      intro p hp
      have hne : k₁ ≠ p.1 := by
        intro e
        have := lookupField_isSome_of_mem hp
        rw [← e, hnd.1] at this
        simp at this
      rw [lookupField_append]
      simp [hdisj p (List.mem_cons_of_mem _ hp), lookupField, hne]
    calc mergeFields d ((k₁, v₁) :: tl)
        = mergeFields (setField d k₁ v₁) tl := by simp [mergeFields]
      _ = mergeFields (d ++ [(k₁, v₁)]) tl := by rw [hset]
      _ = (d ++ [(k₁, v₁)]) ++ tl := ih _ hnd.2 hdisj'
      _ = d ++ ((k₁, v₁) :: tl) := by simp

theorem setField_eq_self_of_lookup {α : Type} (fs : List (String × α)) :
    ∀ {k : String} {v : α}, lookupField fs k = some v →
    setField fs k v = fs := by
  induction fs with
  | nil => intro k v h; simp [lookupField] at h
  | cons hd tl ih =>
    intro k v h
    obtain ⟨k', w⟩ := hd
    by_cases h' : k' = k
    · subst h'
      simp [lookupField] at h
      simp [setField, h]
    · simp only [lookupField, if_neg h'] at h
      simp [setField, h', ih h]

/-- Field names the restore path treats as date-bearing
(`createdAt` / `updatedAt` / `editedAt`). -/
def dateKey (k : String) : Bool :=
  k = "createdAt" || k = "updatedAt" || k = "editedAt"

/-- Test whether a value is a JavaScript string. -/
def isStr : Value → Bool
  | .vstr _ => true
  | _ => false

/-! ### Timestamp conversion (`backup.ts`)

`convertTimestampsToISOStrings` and `convertISOStringsToTimestamps` are the
recursive converters of the backup module.  On the way out every `Timestamp`
becomes its `toISOString` rendering; on the way in, strings matching the ISO
regex become timestamps again (regex-matching but calendar-invalid strings
become `null`, because `isoStringToTimestamp` returns `null` for an
`Invalid Date`), and at the date-bearing keys any string is fed to
`new Date` / `Timestamp.fromDate` directly, keeping the original on failure
(the `try`/`catch`).
-/

mutual

/-- Embedding of `convertTimestampsToISOStrings`. -/
def convertTimestampsToISOStrings : Value → Value
  | .vts t => .vstr (renderIso t)
  | .varr xs => .varr (tsToIsoList xs)
  | .vobj fs => .vobj (tsToIsoFields fs)
  | v => v

/-- Array case of `convertTimestampsToISOStrings`. -/
def tsToIsoList : List Value → List Value
  | [] => []
  | x :: xs => convertTimestampsToISOStrings x :: tsToIsoList xs

/-- Object case of `convertTimestampsToISOStrings`. -/
def tsToIsoFields : Fields → Fields
  | [] => []
  | (k, v) :: fs => (k, convertTimestampsToISOStrings v) :: tsToIsoFields fs

end

mutual

/-- Embedding of `convertISOStringsToTimestamps`. -/
def convertISOStringsToTimestamps : Value → Value
  | .vstr s =>
    if (parseIsoChars s.data).isSome then
      match jsDateParse s with
      | some t => .vts t
      | none => .vnull
    else .vstr s
  | .varr xs => .varr (isoToTsList xs)
  | .vobj fs => .vobj (isoToTsFields fs)
  | v => v

/-- Array case of `convertISOStringsToTimestamps`. -/
def isoToTsList : List Value → List Value
  | [] => []
  | x :: xs => convertISOStringsToTimestamps x :: isoToTsList xs

/-- Object case of `convertISOStringsToTimestamps`, with the explicit
date-key branch for `createdAt` / `updatedAt` / `editedAt` string values. -/
def isoToTsFields : Fields → Fields
  | [] => []
  | (k, v) :: fs =>
    (k,
      if dateKey k then
        match v with
        | .vstr s =>
          match jsDateParse s with
          | some t => .vts t
          | none => .vstr s
        | _ => convertISOStringsToTimestamps v
      else convertISOStringsToTimestamps v) :: isoToTsFields fs

end

/-! ### Round-trip-safe values

`goodVal v` states that `v` survives the out-and-back conversion unchanged:
its timestamps are calendar-valid, none of its plain strings matches the ISO
regex, and no date-bearing key holds a string.
-/

mutual

/-- Values stable under backup-then-restore conversion. -/
def goodVal : Value → Bool
  | .vnull => true
  | .vbool _ => true
  | .vnum _ => true
  | .vstr s => !(isIsoString s)
  | .vts t => validTs t
  | .varr xs => goodList xs
  | .vobj fs => goodFields fs

/-- Lists of round-trip-stable values. -/
def goodList : List Value → Bool
  | [] => true
  | x :: xs => goodVal x && goodList xs

/-- Round-trip-stable field lists: additionally, no date-bearing key holds a
string. -/
def goodFields : Fields → Bool
  | [] => true
  | (k, v) :: fs => (!(dateKey k) || !(isStr v)) && goodVal v && goodFields fs

end

mutual

theorem roundTripVal (v : Value) (h : goodVal v = true) :
    convertISOStringsToTimestamps (convertTimestampsToISOStrings v) = v := by
  match v with
  | .vnull => rfl
  | .vbool b => rfl
  | .vnum n => rfl
  | .vstr s =>
    have hs : (parseIsoChars s.data).isSome = false := by
      simpa [goodVal, isIsoString] using h
    simp [convertTimestampsToISOStrings, convertISOStringsToTimestamps, hs]
  | .vts t =>
    have ht : validTs t = true := by simpa [goodVal] using h
    have hp : parseIsoChars (renderIso t).data = some t := by
      simpa [renderIso] using parseIsoChars_render ht
    have hj : jsDateParse (renderIso t) = some t := jsDateParse_render ht
    simp [convertTimestampsToISOStrings, convertISOStringsToTimestamps, hp, hj]
  | .varr xs =>
    have hx : goodList xs = true := by simpa [goodVal] using h
    simp [convertTimestampsToISOStrings, convertISOStringsToTimestamps,
      roundTripList xs hx]
  | .vobj fs =>
    have hf : goodFields fs = true := by simpa [goodVal] using h
    simp [convertTimestampsToISOStrings, convertISOStringsToTimestamps,
      roundTripFields fs hf]

theorem roundTripList (xs : List Value) (h : goodList xs = true) :
    isoToTsList (tsToIsoList xs) = xs := by
  match xs with
  | [] => rfl
  | x :: xs =>
    have h1 : goodVal x = true := by
      simp [goodList, Bool.and_eq_true] at h
      exact h.1
    have h2 : goodList xs = true := by
      simp [goodList, Bool.and_eq_true] at h
      exact h.2
    simp [tsToIsoList, isoToTsList, roundTripVal x h1, roundTripList xs h2]

theorem roundTripFields (fs : Fields) (h : goodFields fs = true) :
    isoToTsFields (tsToIsoFields fs) = fs := by
  match fs with
  | [] => rfl
  | (k, v) :: fs =>
    simp only [goodFields, Bool.and_eq_true] at h
    obtain ⟨⟨hkv, hv⟩, hfs⟩ := h
    have htail : isoToTsFields (tsToIsoFields fs) = fs := roundTripFields fs hfs
    simp only [tsToIsoFields, isoToTsFields, htail]
    by_cases hk : dateKey k = true
    · match v, hv, hkv with
      | .vnull, _, _ => simp [hk, convertTimestampsToISOStrings,
          convertISOStringsToTimestamps]
      | .vbool b, _, _ => simp [hk, convertTimestampsToISOStrings,
          convertISOStringsToTimestamps]
      | .vnum n, _, _ => simp [hk, convertTimestampsToISOStrings,
          convertISOStringsToTimestamps]
      | .vstr s, _, hkv => simp [hk, isStr] at hkv
      | .vts t, hv, _ =>
        have ht : validTs t = true := by simpa [goodVal] using hv
        simp [hk, convertTimestampsToISOStrings, jsDateParse_render ht]
      | .varr xs, hv, _ =>
        have hx : goodList xs = true := by simpa [goodVal] using hv
        simp [hk, convertTimestampsToISOStrings, convertISOStringsToTimestamps,
          roundTripList xs hx]
      | .vobj gs, hv, _ =>
        have hg : goodFields gs = true := by simpa [goodVal] using hv
        simp [hk, convertTimestampsToISOStrings, convertISOStringsToTimestamps,
          roundTripFields gs hg]
    · simp only [Bool.not_eq_true] at hk
      simp [hk, roundTripVal v hv]

end

/-! ### Substring search

`String.prototype.includes` and the index-URL extraction regex, modelled on
character lists.
-/

/-- Does `n` occur as a contiguous run inside `l`?  (`hay.includes(needle)`
with `hasSub needle hay`.) -/
def hasSub (n : List Char) : List Char → Bool
  | [] => n.isEmpty
  | c :: t => n.isPrefixOf (c :: t) || hasSub n t

/-- JavaScript `hay.includes(needle)`. -/
def containsSub (hay needle : String) : Bool := hasSub needle.data hay.data

/-- Index of the first occurrence of `n` in the list, if any. -/
def findSubIdx (n : List Char) : List Char → Option Nat
  | [] => if n.isEmpty then some 0 else none
  | c :: t =>
    if n.isPrefixOf (c :: t) then some 0
    else (findSubIdx n t).map (· + 1)

/-! ### Admin session (`admin/auth.ts`)

The admin session lives in browser storage.  `stored` models the successfully
parsed stored session object (a malformed or absent entry is `none`); times
are epoch milliseconds.  `getAdminSession` returns `none` for a missing
session and for one whose `expiresAt` is in the past (the source also deletes
the stored entry then — a cleanup this model does not need to track, since
only the returned value gates the admin services).
-/

/-- Locally stored admin session (`Admin` in the source). -/
structure Admin where
  id : String
  isAdmin : Bool
  loggedInAt : Nat
  expiresAt : Nat
deriving DecidableEq, Repr

/-- Embedding of `getAdminSession`: `none` when nothing is stored or the
session has expired (`admin.expiresAt < new Date()`). -/
def getAdminSession (now : Nat) (stored : Option Admin) : Option Admin :=
  match stored with
  | none => none
  | some admin => if admin.expiresAt < now then none else some admin

/-- Embedding of `isAdminAuthenticated`. -/
def isAdminAuthenticated (now : Nat) (stored : Option Admin) : Bool :=
  (getAdminSession now stored).isSome

/-- Error thrown by `verifyAdminAuth` (`ADMIN_AUTH_ERROR`). -/
def ADMIN_AUTH_ERROR : String := "관리자 권한이 필요합니다."

/-! ### Category administration (`admin/categories.ts`)

Categories live as one array field of the singleton settings document;
`CatStore` is the slice of the remote store these functions read and write
(the settings document, which may not exist yet, and the posts collection).
The settings document's other fields play no part here and are elided; quote
punctuation inside the Korean error messages is elided.  Every mutation runs
inside the file's retry loop (`MAX_RETRY_COUNT = 5`): store failures are
modelled by an attempt-indexed oracle (`none` = all store calls of that
attempt succeed, `some e` = the attempt fails with error `e` and, since every
failing mutation path here is a transaction or a single write, without
partial mutation).
-/

/-- Category entry of the settings document (`CategoryItem`).  `icon` is an
optional field. -/
structure CategoryItem where
  id : String
  name : String
  icon : Option String
deriving DecidableEq, Repr

/-- Settings document slice: the categories array and its update stamp. -/
structure SettingsDoc where
  categories : List CategoryItem
  updatedAt : Nat
deriving DecidableEq, Repr

/-- Post slice used by category deletion: id, category and update stamp. -/
structure PostRec where
  id : String
  category : String
  updatedAt : Nat
deriving DecidableEq, Repr

/-- Store slice of the category admin service. -/
structure CatStore where
  settings : Option SettingsDoc
  posts : List PostRec
deriving DecidableEq, Repr

/-- Store error as surfaced to a catch block: a code and a message
(`getErrorMessage` yields the message). -/
structure StoreErr where
  code : String
  msg : String
deriving DecidableEq, Repr

/-- Maximum attempt count of the admin category mutations
(`MAX_RETRY_COUNT` in `admin/categories.ts`). -/
def MAX_RETRY_COUNT_ADMIN : Nat := 5

/-- Maximum attempt count of the read paths (`MAX_RETRY_COUNT` in
`firebase/firestore.ts`). -/
def MAX_RETRY_COUNT_READ : Nat := 3

/-- Lowercase letter or digit (the complement of the slug regex
`[^a-z0-9]`). -/
def isLowerAlnum (c : Char) : Bool :=
  ('a' ≤ c && c ≤ 'z') || ('0' ≤ c && c ≤ '9')

/-- Collapse each run of hyphens to a single hyphen (the global `-+` to `-`
regex replacement of the slug derivation). -/
def collapseDashes : List Char → List Char
  | [] => []
  | [c] => [c]
  | c₁ :: c₂ :: rest =>
    if c₁ = '-' ∧ c₂ = '-' then collapseDashes (c₂ :: rest)
    else c₁ :: collapseDashes (c₂ :: rest)

/-- Strip one leading and one trailing hyphen (`replace(/^-|-$/g, '')`). -/
def stripEndDashes (cs : List Char) : List Char :=
  let cs := match cs with
    | '-' :: r => r
    | _ => cs
  if cs.getLast? = some '-' then cs.dropLast else cs

/-- Trim of leading and trailing whitespace (`String.prototype.trim`). -/
def jsTrim (cs : List Char) : List Char :=
  (((cs.dropWhile Char.isWhitespace).reverse).dropWhile Char.isWhitespace).reverse

/-- Slug derivation of `addCategory`: lowercase (ASCII, per `Char.toLower`),
trim, non-alphanumerics to hyphens, collapse hyphen runs, strip edge
hyphens. -/
def slugify (name : String) : String :=
  let cs := jsTrim (name.data.map Char.toLower)
  let cs := cs.map (fun c => if isLowerAlnum c then c else '-')
  let cs := collapseDashes cs
  let cs := stripEndDashes cs
  String.mk cs

/-- Pair a loop outcome with the visible store: a successful attempt yields
the written store, every failing path of these functions (validation before
any write, or an aborted transaction) leaves the store as it was. -/
def adminOutcome {β : Type} (st : CatStore) :
    Nat × Except String (CatStore × β) → Nat × CatStore × Except String β
  | (a, .ok (st', v)) => (a, st', .ok v)
  | (a, .error m) => (a, st, .error m)

/-- Shape of the retry loop shared by all five admin category functions:
`attempts` starts at 0 and is pre-incremented; a `resource-exhausted` error
retries while attempts remain, any other error retries too unless the budget
is exhausted, in which case the wrapped message is thrown; the fall-through
throw after the loop is the `fuel = 0` case. -/
def adminRetryLoop {α : Type} (maxR : Nat) (core : Nat → Except String α)
    (wrap : String → String) (fallback : String) :
    Nat → Nat → Nat × Except String α
  | 0, attempts => (attempts, .error fallback)
  | fuel + 1, attempts =>
    let a := attempts + 1
    match core a with
    | .ok r => (a, .ok r)
    | .error msg =>
      if containsSub msg "resource-exhausted" && a < maxR then
        adminRetryLoop maxR core wrap fallback fuel a
      else if maxR ≤ a then (a, .error (wrap msg))
      else adminRetryLoop maxR core wrap fallback fuel a

/-- One attempt of `addCategory` with all store calls succeeding.  The
bootstrap branch (no settings document yet) creates the document and then
writes the single new category. -/
def addCategoryCore (now : Nat) (st : CatStore) (name : String)
    (icon : Option String) : Except String (CatStore × String) :=
  let newId := slugify name
  if newId = "" then
    .error "유효한 카테고리 ID를 생성할 수 없습니다. 카테고리 이름을 확인해주세요."
  else
    match st.settings with
    | none =>
      .ok ({ st with settings := some ⟨[⟨newId, name, icon⟩], now⟩ }, newId)
    | some sd =>
      if sd.categories.any (fun c => c.id == newId) then
        .error ("ID " ++ newId ++ "는 이미 사용 중입니다. 다른 카테고리 이름을 선택해주세요.")
      else if sd.categories.any (fun c => c.name == name) then
        .error ("이름 " ++ name ++ "은(는) 이미 사용 중입니다. 다른 카테고리 이름을 선택해주세요.")
      else
        .ok ({ st with settings := some ⟨sd.categories ++ [⟨newId, name, icon⟩], now⟩ },
          newId)

/-- Embedding of `addCategory`: admin gate, then the retry loop around the
core; returns the attempt count together with the outcome. -/
def addCategoryModel (session : Option Admin) (now : Nat)
    (oracle : Nat → Option StoreErr) (st : CatStore) (name : String)
    (icon : Option String) : Nat × CatStore × Except String String :=
  adminOutcome st <|
  if !(isAdminAuthenticated now session) then (0, .error ADMIN_AUTH_ERROR)
  else
    adminRetryLoop MAX_RETRY_COUNT_ADMIN
      (fun a => match oracle a with
        | some e => .error e.msg
        | none => addCategoryCore now st name icon)
      (fun m => "카테고리 추가 중 오류가 발생했습니다: " ++ m)
      "카테고리 추가 중 오류가 발생했습니다: 재시도 횟수 초과"
      MAX_RETRY_COUNT_ADMIN 0

/-- One attempt of `updateCategory` with all store calls succeeding. -/
def updateCategoryCore (now : Nat) (st : CatStore) (categoryId updatedName : String)
    (icon : Option String) : Except String (CatStore × Bool) :=
  match st.settings with
  | none => .error "설정 데이터를 찾을 수 없습니다."
  | some sd =>
    match sd.categories.findIdx? (fun c => c.id == categoryId) with
    | none => .error ("ID가 " ++ categoryId ++ "인 카테고리를 찾을 수 없습니다.")
    | some categoryIndex =>
      if sd.categories.enum.any
          (fun p => p.2.name == updatedName && p.1 != categoryIndex) then
        .error ("이름 " ++ updatedName ++ "은(는) 이미 사용 중입니다. 다른 카테고리 이름을 선택해주세요.")
      else
        let updatedCategories := sd.categories.map
          (fun c =>
            if c.id == categoryId then
              { c with
                name := updatedName,
                icon := match icon with
                  | none => c.icon
                  | some s => if s = "" then none else some s }
            else c)
        .ok ({ st with settings := some ⟨updatedCategories, now⟩ }, true)

/-- Embedding of `updateCategory`. -/
def updateCategoryModel (session : Option Admin) (now : Nat)
    (oracle : Nat → Option StoreErr) (st : CatStore)
    (categoryId updatedName : String) (icon : Option String) :
    Nat × CatStore × Except String Bool :=
  adminOutcome st <|
  if !(isAdminAuthenticated now session) then (0, .error ADMIN_AUTH_ERROR)
  else
    adminRetryLoop MAX_RETRY_COUNT_ADMIN
      (fun a => match oracle a with
        | some e => .error e.msg
        | none => updateCategoryCore now st categoryId updatedName icon)
      (fun m => "카테고리 수정 중 오류가 발생했습니다: " ++ m)
      "카테고리 수정 중 오류가 발생했습니다: 재시도 횟수 초과"
      MAX_RETRY_COUNT_ADMIN 0

/-- One attempt of `deleteCategory` with all store calls succeeding: find the
category, query the posts referencing it in the transaction, refuse when
posts exist but no category remains to receive them, otherwise reassign those
posts to the first remaining category and remove the entry via `arrayRemove`
(which deletes the array elements equal to the found entry). -/
def deleteCategoryCore (now : Nat) (st : CatStore) (categoryId : String) :
    Except String (CatStore × Bool) :=
  match st.settings with
  | none => .error "설정 데이터를 찾을 수 없습니다."
  | some sd =>
    match sd.categories.find? (fun c => c.id == categoryId) with
    | none => .error ("ID가 " ++ categoryId ++ "인 카테고리를 찾을 수 없습니다.")
    | some categoryToDelete =>
      let postsWithCategory := st.posts.filter (fun p => p.category == categoryId)
      let remainingCategories := sd.categories.filter (fun c => !(c.id == categoryId))
      let targetCategoryId := match remainingCategories with
        | [] => ""
        | c :: _ => c.id
      if postsWithCategory.length > 0 ∧ targetCategoryId = "" then
        .error "게시물을 이동할 카테고리가 없습니다. 최소한 하나의 카테고리가 필요합니다."
      else
        let newPosts :=
          if postsWithCategory.length > 0 then
            st.posts.map (fun p =>
              if p.category == categoryId then
                { p with category := targetCategoryId, updatedAt := now }
              else p)
          else st.posts
        .ok ({ settings := some ⟨sd.categories.filter (fun c => !(c == categoryToDelete)), now⟩,
               posts := newPosts }, true)

/-- Embedding of `deleteCategory`. -/
def deleteCategoryModel (session : Option Admin) (now : Nat)
    (oracle : Nat → Option StoreErr) (st : CatStore) (categoryId : String) :
    Nat × CatStore × Except String Bool :=
  adminOutcome st <|
  if !(isAdminAuthenticated now session) then (0, .error ADMIN_AUTH_ERROR)
  else
    adminRetryLoop MAX_RETRY_COUNT_ADMIN
      (fun a => match oracle a with
        | some e => .error e.msg
        | none => deleteCategoryCore now st categoryId)
      (fun m => "카테고리 삭제 중 오류가 발생했습니다: " ++ m)
      "카테고리 삭제 중 오류가 발생했습니다: 재시도 횟수 초과"
      MAX_RETRY_COUNT_ADMIN 0

/-- One attempt of `reorderCategories` with all store calls succeeding: every
existing id must appear in the proposed list and every proposed id must
already exist (a set-inclusion check both ways); then the proposed array is
written as-is.  The source iterates JavaScript `Set`s, so which offending id
an error names can differ from this list traversal, but acceptance is
identical. -/
def reorderCategoriesCore (now : Nat) (st : CatStore)
    (sortedCategories : List CategoryItem) : Except String (CatStore × Bool) :=
  match st.settings with
  | none => .error "설정 데이터를 찾을 수 없습니다."
  | some sd =>
    let existingIds := sd.categories.map (fun c => c.id)
    let newIds := sortedCategories.map (fun c => c.id)
    match existingIds.find? (fun i => !(newIds.contains i)) with
    | some i =>
      .error ("카테고리 ID " ++ i ++ "가 누락되었습니다. 모든 기존 카테고리를 포함해야 합니다.")
    | none =>
      match newIds.find? (fun i => !(existingIds.contains i)) with
      | some i =>
        .error ("카테고리 ID " ++ i ++ "는 기존에 존재하지 않습니다. 새 카테고리는 추가할 수 없습니다.")
      | none =>
        .ok ({ st with settings := some ⟨sortedCategories, now⟩ }, true)

/-- Embedding of `reorderCategories`. -/
def reorderCategoriesModel (session : Option Admin) (now : Nat)
    (oracle : Nat → Option StoreErr) (st : CatStore)
    (sortedCategories : List CategoryItem) : Nat × CatStore × Except String Bool :=
  adminOutcome st <|
  if !(isAdminAuthenticated now session) then (0, .error ADMIN_AUTH_ERROR)
  else
    adminRetryLoop MAX_RETRY_COUNT_ADMIN
      (fun a => match oracle a with
        | some e => .error e.msg
        | none => reorderCategoriesCore now st sortedCategories)
      (fun m => "카테고리 순서 변경 중 오류가 발생했습니다: " ++ m)
      "카테고리 순서 변경 중 오류가 발생했습니다: 재시도 횟수 초과"
      MAX_RETRY_COUNT_ADMIN 0

/-! ### Read-path retry (`firebase/firestore.ts`)

The read fetchers loop up to `MAX_RETRY_COUNT = 3` attempts.
`fetchPostsByCategory` additionally classifies an index-missing store error
(`failed-precondition` code or a `requires an index` message) and rethrows a
descriptive configuration message immediately instead of retrying.  The store
is abstracted to an attempt-indexed oracle giving each attempt's query
outcome; the result payload type is a parameter since only control flow
matters here.
-/

/-- Index-missing classification of `fetchPostsByCategory`
(`error.code === 'failed-precondition' || error.message?.includes('requires an index')`). -/
def isIndexError (e : StoreErr) : Bool :=
  e.code == "failed-precondition" || containsSub e.msg "requires an index"

/-- Start of the console URL the index-error handler extracts. -/
def indexUrlMarker : String := "https://console.firebase.google.com"

/-- Extraction of the index-creation URL from the error message: from the
first occurrence of the console URL, all following characters that are not
whitespace and not a double quote. -/
def extractIndexUrl (msg : String) : Option String :=
  match findSubIdx indexUrlMarker.data msg.data with
  | none => none
  | some i =>
    some (String.mk ((msg.data.drop i).takeWhile
      (fun c => !(c.isWhitespace || c = '"'))))

/-- Descriptive configuration message built for an index-missing error. -/
def indexNeededMessage (e : StoreErr) : String :=
  match extractIndexUrl e.msg with
  | some url =>
    "Firebase 복합 인덱스가 필요합니다. 다음 링크에서 인덱스를 생성해주세요: " ++ url
  | none => "Firebase 복합 인덱스가 필요합니다. Firebase 콘솔에서 인덱스를 생성해주세요."

/-- Retry loop of `fetchPosts`: every error retries until the attempt budget
is exhausted. -/
def fetchPostsLoop {α : Type} (oracle : Nat → Except StoreErr α) :
    Nat → Nat → Nat × Except String α
  | 0, attempts =>
    (attempts, .error "게시물 데이터를 가져오지 못했습니다. 잠시 후 다시 시도해주세요.")
  | fuel + 1, attempts =>
    let a := attempts + 1
    match oracle a with
    | .ok v => (a, .ok v)
    | .error _ =>
      if MAX_RETRY_COUNT_READ ≤ a then
        (a, .error "게시물 데이터를 가져오지 못했습니다. 잠시 후 다시 시도해주세요.")
      else fetchPostsLoop oracle fuel a

/-- Embedding of `fetchPosts`, returning the attempt count and the outcome. -/
def fetchPostsModel {α : Type} (oracle : Nat → Except StoreErr α) :
    Nat × Except String α :=
  fetchPostsLoop oracle MAX_RETRY_COUNT_READ 0

/-- Retry loop of `fetchPostsByCategory`: an index-missing error rethrows the
descriptive configuration message at once; other errors retry up to the
budget. -/
def fetchPostsByCategoryLoop {α : Type} (category : String)
    (oracle : Nat → Except StoreErr α) : Nat → Nat → Nat × Except String α
  | 0, attempts =>
    (attempts,
      .error (category ++ " 카테고리 게시물을 가져오지 못했습니다. 잠시 후 다시 시도해주세요."))
  | fuel + 1, attempts =>
    let a := attempts + 1
    match oracle a with
    | .ok v => (a, .ok v)
    | .error e =>
      if isIndexError e then
        (a, .error (category ++ " 카테고리 조회를 위한 " ++ indexNeededMessage e))
      else if MAX_RETRY_COUNT_READ ≤ a then
        (a,
          .error (category ++ " 카테고리 게시물을 가져오지 못했습니다. 잠시 후 다시 시도해주세요."))
      else fetchPostsByCategoryLoop category oracle fuel a

/-- Embedding of `fetchPostsByCategory`: an empty or `all` category delegates
to `fetchPosts` (whose query the `oracleAll` argument answers). -/
def fetchPostsByCategoryModel {α : Type} (category : String)
    (oracleAll oracle : Nat → Except StoreErr α) : Nat × Except String α :=
  if category = "" ∨ category = "all" then fetchPostsModel oracleAll
  else fetchPostsByCategoryLoop category oracle MAX_RETRY_COUNT_READ 0

/-! ### Post update and move (`firebase/firestore.ts`)

Posts are documents (`Fields`) keyed by id.  `updateDoc` on a missing
document fails; that store error is represented by the fixed message
`No document to update`.  The numeric-id-to-string normalization of the
source is elided (ids are already strings here).
-/

/-- The `date`-field drop of `updatePost`
(`if ('date' in updateData) delete updateData.date`). -/
def applyDateRemoval (ud : Fields) : Fields :=
  if (lookupField ud "date").isSome then removeField ud "date" else ud

/-- The UI `comments`-to-`commentCount` rename of `updatePost`. -/
def applyCommentsRename (ud : Fields) : Fields :=
  match lookupField ud "comments" with
  | some v => removeField (setField ud "commentCount" v) "comments"
  | none => ud

/-- The update payload construction of `updatePost`: copy the caller's data,
stamp `updatedAt` with now, drop the UI `date` field, rename the UI
`comments` field to `commentCount`, and strip `createdAt` and `id`. -/
def buildUpdateData (postData : Fields) (now : Ts) : Fields :=
  removeField
    (removeField
      (applyCommentsRename (applyDateRemoval (setField postData "updatedAt" (.vts now))))
      "createdAt")
    "id"

/-- The `updateDoc` write of `updatePost`: merge the update payload onto the
stored document. -/
def updatePostWrite (store : List (String × Fields)) (postId : String)
    (postData : Fields) (now : Ts) : Except String (List (String × Fields)) :=
  match lookupField store postId with
  | none => .error "No document to update"
  | some d => .ok (setField store postId (mergeFields d (buildUpdateData postData now)))

/-- Embedding of `updatePost`: optional author check (read the document,
compare `authorId` with the caller), then the defensive-field write. -/
def updatePostModel (store : List (String × Fields)) (postId : String)
    (postData : Fields) (userId : Option String) (now : Ts) :
    Except String (List (String × Fields)) :=
  match userId with
  | some u =>
    match lookupField store postId with
    | none => .error "게시물을 찾을 수 없습니다."
    | some docSnap =>
      match lookupField docSnap "authorId" with
      | some (.vstr s) =>
        if s = u then updatePostWrite store postId postData now
        else .error "자신이 작성한 게시물만 수정할 수 있습니다."
      | _ => .error "자신이 작성한 게시물만 수정할 수 있습니다."
  | none => updatePostWrite store postId postData now

/-- The category write of `movePost`: set `category` and refresh
`updatedAt`. -/
def movePostWrite (store : List (String × Fields)) (postId categoryId : String)
    (now : Ts) : Except String (List (String × Fields)) :=
  match lookupField store postId with
  | none => .error "No document to update"
  | some d =>
    .ok (setField store postId
      (setField (setField d "category" (.vstr categoryId)) "updatedAt" (.vts now)))

/-- Embedding of `movePost`: when a caller uid is supplied, the document is
read, the author is checked, and a move to the document's current category is
rejected; without a caller uid the write happens unconditionally. -/
def movePostModel (store : List (String × Fields)) (postId categoryId : String)
    (userId : Option String) (now : Ts) : Except String (List (String × Fields)) :=
  match userId with
  | some u =>
    match lookupField store postId with
    | none => .error "게시물을 찾을 수 없습니다."
    | some docSnap =>
      match lookupField docSnap "authorId" with
      | some (.vstr s) =>
        if s = u then
          match lookupField docSnap "category" with
          | some (.vstr c) =>
            if c = categoryId then .error "이미 해당 카테고리에 속해 있는 게시물입니다."
            else movePostWrite store postId categoryId now
          | _ => movePostWrite store postId categoryId now
        else .error "자신이 작성한 게시물만 이동할 수 있습니다."
      | _ => .error "자신이 작성한 게시물만 이동할 수 있습니다."
  | none => movePostWrite store postId categoryId now

/-! ### Comments and the commentCount transaction (`firebase/firestore.ts`)

The slice the comment transactions touch: every post's `commentCount` (an
integer, adjusted with `increment(±1)`) and the comment documents.  The
`updatedAt` bump of the parent post and the comment body timestamps are
elided: they never feed back into the counter.  A transaction whose
`transaction.update` targets a missing post document aborts as a whole.
-/

/-- Comment document slice (author `photoURL` elided). -/
structure CommentRec where
  id : String
  postId : String
  content : String
  authorName : String
  authorId : String
deriving DecidableEq, Repr

/-- Store slice of the comment repository: posts as id-to-commentCount, plus
the comment documents in creation order. -/
structure CommentStore where
  posts : List (String × Int)
  comments : List CommentRec
deriving DecidableEq, Repr

/-- Embedding of `createComment`: required-field validation (the `author`
object itself is always truthy), then one transaction inserting the comment
with a generated id and incrementing the parent post's count. -/
def createCommentModel (st : CommentStore) (freshId postId content authorName
    authorId : String) : Except String CommentStore :=
  if postId = "" ∨ content = "" ∨ authorId = "" then
    .error "필수 필드가 누락되었습니다."
  else
    match lookupField st.posts postId with
    | none => .error "No document to update"
    | some n =>
      .ok { posts := setField st.posts postId (n + 1),
            comments := st.comments ++ [⟨freshId, postId, content, authorName, authorId⟩] }

/-- Embedding of `deleteComment`: author check outside the transaction, then
one transaction deleting the comment and decrementing the supplied post's
count. -/
def deleteCommentModel (st : CommentStore) (commentId postId userId : String) :
    Except String CommentStore :=
  match st.comments.find? (fun c => c.id == commentId) with
  | none => .error "댓글을 찾을 수 없습니다."
  | some c =>
    if c.authorId ≠ userId then .error "자신이 작성한 댓글만 삭제할 수 있습니다."
    else
      match lookupField st.posts postId with
      | none => .error "No document to update"
      | some n =>
        .ok { posts := setField st.posts postId (n - 1),
              comments := st.comments.eraseP (fun c' => c'.id == commentId) }

/-- One call against the comment repository. -/
inductive CommentOp where
  | create (freshId postId content authorName authorId : String)
  | del (commentId postId userId : String)
deriving DecidableEq, Repr

/-- The post a call addresses. -/
def commentOpPostId : CommentOp → String
  | .create _ postId _ _ _ => postId
  | .del _ postId _ => postId

/-- Big-step of one sequential call: a failed call leaves the store as it
was. -/
def commentStep (st : CommentStore) : CommentOp → CommentStore
  | .create freshId postId content an aid =>
    match createCommentModel st freshId postId content an aid with
    | .ok s => s
    | .error _ => st
  | .del commentId postId userId =>
    match deleteCommentModel st commentId postId userId with
    | .ok s => s
    | .error _ => st

/-- Run a sequence of sequential comment calls. -/
def runCommentOps (st : CommentStore) (ops : List CommentOp) : CommentStore :=
  ops.foldl commentStep st

/-! ### Bookmarks (`firebase/firestore.ts`)

Bookmark documents with their `(userId, postId)` pair; `createdAt` is elided
(never read by add, remove or the existence check).
-/

/-- Bookmark document slice. -/
structure BookmarkRec where
  id : String
  userId : String
  postId : String
deriving DecidableEq, Repr

/-- Embedding of `isBookmarked`: a limit-1 query for the pair; empty inputs
and query failures yield `false`. -/
def isBookmarkedModel (st : List BookmarkRec) (userId postId : String) : Bool :=
  if userId = "" ∨ postId = "" then false
  else st.any (fun b => b.userId == userId && b.postId == postId)

/-- Embedding of `addBookmark`: required inputs, existence check, then insert
with a generated id. -/
def addBookmarkModel (st : List BookmarkRec) (freshId userId postId : String) :
    Except String (List BookmarkRec × String) :=
  if userId = "" ∨ postId = "" then .error "사용자 ID와 게시물 ID는 필수입니다."
  else if isBookmarkedModel st userId postId then .error "이미 북마크된 게시물입니다."
  else .ok (st ++ [⟨freshId, userId, postId⟩], freshId)

/-- Embedding of `removeBookmark`: query the first bookmark of the pair, fail
when none exists, delete the found document by id. -/
def removeBookmarkModel (st : List BookmarkRec) (userId postId : String) :
    Except String (List BookmarkRec) :=
  if userId = "" ∨ postId = "" then .error "사용자 ID와 게시물 ID는 필수입니다."
  else
    match st.find? (fun b => b.userId == userId && b.postId == postId) with
    | none => .error "북마크를 찾을 수 없습니다."
    | some b => .ok (st.eraseP (fun b' => b'.id == b.id))

/-- One sequential bookmark call. -/
inductive BookmarkOp where
  | add (freshId userId postId : String)
  | remove (userId postId : String)
deriving DecidableEq, Repr

/-- Big-step of one sequential bookmark call; failures leave the store. -/
def bookmarkStep (st : List BookmarkRec) : BookmarkOp → List BookmarkRec
  | .add freshId userId postId =>
    match addBookmarkModel st freshId userId postId with
    | .ok (s, _) => s
    | .error _ => st
  | .remove userId postId =>
    match removeBookmarkModel st userId postId with
    | .ok s => s
    | .error _ => st

/-- Run a sequence of sequential bookmark calls. -/
def runBookmarkOps (st : List BookmarkRec) (ops : List BookmarkOp) :
    List BookmarkRec :=
  ops.foldl bookmarkStep st

/-- Number of bookmark documents of a given `(userId, postId)` pair. -/
def countPair (st : List BookmarkRec) (userId postId : String) : Nat :=
  (st.filter (fun b => b.userId == userId && b.postId == postId)).length

/-! ### Backup and restore (`admin/backup.ts`)

A `BackupStore` is the whole document store: collection name to documents,
each document an id with its field list.  `backupData` dumps the requested
collections with timestamps rendered as ISO strings and an `id` field spread
under the document fields (a stored `id` field of the data would override the
document id).  `restoreData` parses the JSON (a malformed payload is the
`none` input — `JSON.parse` is modelled as the partial function from strings
to parsed backups), optionally clears each target collection, converts
ISO-looking strings back and re-inserts per document, counting per-document
failures instead of aborting.  `JSON.stringify`/`JSON.parse` of the backup
object is the identity on this data and is not modelled further; the
`metadata.createdAt`/`version` strings are elided (restore only logs them).
-/

/-- The document store: collections of documents. -/
abbrev BackupStore := List (String × List (String × Fields))

/-- Default collection list of both `backupData` and `restoreData`. -/
def DEFAULT_COLLECTIONS : List String := ["posts", "comments", "settings", "bookmarks"]

/-- Documents of a collection; a collection with no documents does not exist
(`getDocs` on it yields no rows). -/
def fetchCollectionDocs (st : BackupStore) (collName : String) :
    List (String × Fields) :=
  (lookupField st collName).getD []

/-- One dumped document: `{ id: doc.id, ...convertTimestampsToISOStrings(data) }`. -/
def backupEntryOfDoc (id : String) (fields : Fields) : Fields :=
  mergeFields [("id", Value.vstr id)] (tsToIsoFields fields)

/-- Parsed backup payload: metadata plus per-collection document dumps. -/
structure BackupObj where
  metaCollections : List String
  metaCounts : List (String × Nat)
  data : List (String × List Fields)

/-- The backup object `backupData` builds for a store: the requested
collections (skipping `users` unless included, appending it when included
but not requested), dumped with `backupEntryOfDoc`, plus the metadata
collection list and counts. -/
def backupObjOf (st : BackupStore) (collections : List String)
    (includeUsers : Bool) : BackupObj :=
  let dumped := (collections.filter
      (fun c => !(c == "users" && !includeUsers))).map
    (fun c => (c, (fetchCollectionDocs st c).map (fun d => backupEntryOfDoc d.1 d.2)))
  let dumped :=
    if includeUsers && !(collections.contains "users") then
      dumped ++ [("users", (fetchCollectionDocs st "users").map
        (fun d => backupEntryOfDoc d.1 d.2))]
    else dumped
  { metaCollections := dumped.map Prod.fst,
    metaCounts := dumped.map (fun p => (p.1, p.2.length)),
    data := dumped }

/-- Embedding of `backupData`: admin gate, then the dump. -/
def backupDataModel (session : Option Admin) (now : Nat) (st : BackupStore)
    (collections : List String) (includeUsers : Bool) :
    Except String BackupObj :=
  if !(isAdminAuthenticated now session) then .error ADMIN_AUTH_ERROR
  else .ok (backupObjOf st collections includeUsers)

/-- The per-date-field conversion of `processCollectionSpecificData`: a
non-empty string value at the key is put through `new Date` /
`Timestamp.fromDate`, which throws on an unparseable value (no `try` here,
so the document fails); other values pass through. -/
def convDateField (d : Fields) (k : String) : Option Fields :=
  match lookupField d k with
  | some (.vstr s) =>
    if s = "" then some d
    else
      match jsDateParse s with
      | some t => some (setField d k (.vts t))
      | none => none
  | _ => some d

/-- Embedding of `processCollectionSpecificData`: explicit date handling for
posts and comments (`createdAt`, `updatedAt`) and settings (`updatedAt`). -/
def processCollectionSpecificData (collName : String) (d : Fields) :
    Option Fields :=
  if collName = "posts" ∨ collName = "comments" then
    (convDateField d "createdAt").bind (fun d' => convDateField d' "updatedAt")
  else if collName = "settings" then convDateField d "updatedAt"
  else some d

/-- `setDoc` on the store: write a document body at a collection and id,
creating the collection entry when absent. -/
def setDocStore (st : BackupStore) (collName id : String) (d : Fields) :
    BackupStore :=
  match lookupField st collName with
  | some coll => setField st collName (setField coll id d)
  | none => st ++ [(collName, [(id, d)])]

/-- Embedding of `clearCollection` (paginated batch delete of every
document); an emptied collection keeps an empty entry, an absent one stays
absent. -/
def clearCollectionModel (st : BackupStore) (collName : String) : BackupStore :=
  match lookupField st collName with
  | some _ => setField st collName []
  | none => st

/-- Restore one dumped document: destructure the `id` field (a missing or
non-string id makes `doc()` throw, a per-document failure), skip existing
documents unless overwriting, convert ISO strings back, apply the
collection-specific date handling (whose failure is also per-document), and
`setDoc`.  Result: new store, whether restored, whether failed. -/
def restoreDocModel (collName : String) (overwrite : Bool) (st : BackupStore)
    (item : Fields) : BackupStore × Bool × Bool :=
  match lookupField item "id" with
  | some (.vstr id) =>
    let docData := removeField item "id"
    if !overwrite && (lookupField (fetchCollectionDocs st collName) id).isSome then
      (st, false, false)
    else
      let processedData := isoToTsFields docData
      match processCollectionSpecificData collName processedData with
      | some finalData => (setDocStore st collName id finalData, true, false)
      | none => (st, false, true)
  | _ => (st, false, true)

/-- Restore one collection's dump: optional clear, then per-document
restore accumulating restored/failed counts. -/
def restoreCollectionModel (collName : String) (overwrite deleteBefore : Bool)
    (st : BackupStore) (items : List Fields) : BackupStore × Nat × Nat :=
  let st := if deleteBefore then clearCollectionModel st collName else st
  items.foldl
    (fun (acc : BackupStore × Nat × Nat) item =>
      let res := restoreDocModel collName overwrite acc.1 item
      (res.1, acc.2.1 + (if res.2.1 then 1 else 0),
        acc.2.2 + (if res.2.2 then 1 else 0)))
    (st, 0, 0)

/-- One iteration of the `restoreData` loop over the requested collection
names: a collection absent from the backup data is skipped, a present one is
restored and its restored count recorded. -/
def restoreDataStep (b : BackupObj) (overwrite deleteBefore : Bool)
    (acc : BackupStore × List (String × Nat)) (c : String) :
    BackupStore × List (String × Nat) :=
  match lookupField b.data c with
  | none => acc
  | some items =>
    let res := restoreCollectionModel c overwrite deleteBefore acc.1 items
    (res.1, acc.2 ++ [(c, res.2.1)])

/-- Embedding of `restoreData`: admin gate, JSON parse (`none` input =
malformed JSON, surfaced through `handleError` with its prefix), then a
restore of each requested collection present in the backup, returning the
per-collection restored counts; the store travels alongside the outcome and
is untouched on the failing paths. -/
def restoreDataModel (session : Option Admin) (now : Nat) (st : BackupStore)
    (input : Option BackupObj) (collections : List String)
    (overwrite deleteBefore : Bool) :
    BackupStore × Except String (List (String × Nat)) :=
  if !(isAdminAuthenticated now session) then (st, .error ADMIN_AUTH_ERROR)
  else
    match input with
    | none =>
      (st, .error "데이터 복원 중 오류가 발생했습니다: 올바른 JSON 형식이 아닙니다. 백업 파일을 확인해주세요.")
    | some b =>
      let result := collections.foldl
        (restoreDataStep b overwrite deleteBefore) (st, [])
      (result.1, .ok result.2)

/-! ## Claim theorems

Each claim of the specification is settled by exactly one theorem below
(plus, where needed, a closed witness instantiating it and, for corrected
claims, a closed counterexample against the original wording).
-/

/-- Claim C10: every admin-gated mutation (addCategory, updateCategory,
deleteCategory, reorderCategories, backupData, restoreData) checks the
stored admin session first, and when the session is absent or expired
(`getAdminSession` yields `none`) it throws the admin-authorization error
with zero attempts made and the store unchanged. -/
theorem claim_C10 (session : Option Admin) (now : Nat)
    (h : getAdminSession now session = none) :
    (∀ oracle st name icon, addCategoryModel session now oracle st name icon =
      (0, st, .error ADMIN_AUTH_ERROR)) ∧
    (∀ oracle st cid nm icon,
      updateCategoryModel session now oracle st cid nm icon =
        (0, st, .error ADMIN_AUTH_ERROR)) ∧
    (∀ oracle st cid, deleteCategoryModel session now oracle st cid =
      (0, st, .error ADMIN_AUTH_ERROR)) ∧
    (∀ oracle st l, reorderCategoriesModel session now oracle st l =
      (0, st, .error ADMIN_AUTH_ERROR)) ∧
    (∀ st colls inc, backupDataModel session now st colls inc =
      .error ADMIN_AUTH_ERROR) ∧
    (∀ st input colls ow db, restoreDataModel session now st input colls ow db =
      (st, .error ADMIN_AUTH_ERROR)) := by
  have hb : isAdminAuthenticated now session = false := by
    simp [isAdminAuthenticated, h]
  refine ⟨?_, ?_, ?_, ?_, ?_, ?_⟩
  · intro oracle st name icon
    simp [addCategoryModel, hb, adminOutcome]
  · intro oracle st cid nm icon
    simp [updateCategoryModel, hb, adminOutcome]
  · intro oracle st cid
    simp [deleteCategoryModel, hb, adminOutcome]
  · intro oracle st l
    simp [reorderCategoriesModel, hb, adminOutcome]
  · intro st colls inc
    simp [backupDataModel, hb]
  · intro st input colls ow db
    simp [restoreDataModel, hb]

/-- Witness for claim C10 at a concrete expired session: stored session
expired at 5, current time 10. -/
theorem claim_C10_witness :
    getAdminSession 10 (some ⟨"admin", true, 0, 5⟩) = none ∧
    addCategoryModel (some ⟨"admin", true, 0, 5⟩) 10 (fun _ => none)
      ⟨none, []⟩ "general" none = (0, ⟨none, []⟩, .error ADMIN_AUTH_ERROR) ∧
    restoreDataModel (some ⟨"admin", true, 0, 5⟩) 10 [] none
      DEFAULT_COLLECTIONS true false = ([], .error ADMIN_AUTH_ERROR) :=
  ⟨rfl,
    (claim_C10 (some ⟨"admin", true, 0, 5⟩) 10 rfl).1 (fun _ => none) ⟨none, []⟩
      "general" none,
    (claim_C10 (some ⟨"admin", true, 0, 5⟩) 10 rfl).2.2.2.2.2 [] none
      DEFAULT_COLLECTIONS true false⟩

/-- Store with one post in category `tech` for the claim C8 analysis. -/
def sampleMoveStore : List (String × Fields) :=
  [("p1", [("title", .vstr "hello"), ("category", .vstr "tech"),
    ("authorId", .vstr "u1")])]

/-- Counterexample to claim C8 as stated: moving post `p1` to its current
category `tech` with no caller uid supplied succeeds (rewriting the category
and stamping `updatedAt`) instead of failing with an error. -/
theorem claim_C8_counterexample :
    movePostModel sampleMoveStore "p1" "tech" none ⟨2024, 1, 1, 0, 0, 0, 0⟩ =
      .ok [("p1", [("title", .vstr "hello"), ("category", .vstr "tech"),
        ("authorId", .vstr "u1"),
        ("updatedAt", .vts ⟨2024, 1, 1, 0, 0, 0, 0⟩)])] := rfl

/-- Claim C8 (amended): movePost rejects the no-op move (new category equal
to the post's current category) with an error and leaves the post unchanged
only when a caller uid is supplied and matches the author; when no caller
uid is supplied, the same call succeeds, rewriting the unchanged category
and refreshing `updatedAt`. -/
theorem claim_C8 (store : List (String × Fields)) (postId c u : String)
    (doc : Fields) (now : Ts)
    (hdoc : lookupField store postId = some doc)
    (hauth : lookupField doc "authorId" = some (.vstr u))
    (hcat : lookupField doc "category" = some (.vstr c)) :
    movePostModel store postId c (some u) now =
      .error "이미 해당 카테고리에 속해 있는 게시물입니다." ∧
    movePostModel store postId c none now =
      .ok (setField store postId
        (setField (setField doc "category" (.vstr c)) "updatedAt" (.vts now))) := by
  constructor
  · simp [movePostModel, hdoc, hauth, hcat]
  · simp [movePostModel, movePostWrite, hdoc]

/-- Witness for claim C8 at the concrete store: both rejection with the
author's uid and acceptance without one. -/
theorem claim_C8_witness :
    lookupField sampleMoveStore "p1" =
      some [("title", .vstr "hello"), ("category", .vstr "tech"),
        ("authorId", .vstr "u1")] ∧
    movePostModel sampleMoveStore "p1" "tech" (some "u1") ⟨2024, 1, 1, 0, 0, 0, 0⟩ =
      .error "이미 해당 카테고리에 속해 있는 게시물입니다." :=
  ⟨rfl,
    (claim_C8 sampleMoveStore "p1" "tech" "u1"
      [("title", .vstr "hello"), ("category", .vstr "tech"),
        ("authorId", .vstr "u1")]
      ⟨2024, 1, 1, 0, 0, 0, 0⟩ rfl rfl rfl).1⟩

theorem any_iff_filter_pos {α : Type} (l : List α) (f : α → Bool) :
    l.any f = true ↔ 0 < (l.filter f).length := by
  rw [List.any_eq_true]
  constructor
  · rintro ⟨x, hx, hfx⟩
    have hm : x ∈ l.filter f := List.mem_filter.mpr ⟨hx, hfx⟩
    exact List.length_pos.mpr (fun e => by simp [e] at hm)
  · intro h
    obtain ⟨x, hx⟩ := List.exists_mem_of_length_pos h
    have := List.mem_filter.mp hx
    exact ⟨x, this.1, this.2⟩

theorem bookmarkStep_countPair_le (u p : String) (st : List BookmarkRec)
    (op : BookmarkOp) (h : countPair st u p ≤ 1) :
    countPair (bookmarkStep st op) u p ≤ 1 := by
  cases op with
  | add freshId u' p' =>
    by_cases hval : u' = "" ∨ p' = ""
    · simp [bookmarkStep, addBookmarkModel, hval, h]
    · have hbm : isBookmarkedModel st u' p' =
          st.any (fun b => b.userId == u' && b.postId == p') := by
        simp [isBookmarkedModel, hval]
      by_cases hany : st.any (fun b => b.userId == u' && b.postId == p') = true
      · simp [bookmarkStep, addBookmarkModel, hval, hbm, hany, h]
      · have hanyf : st.any (fun b => b.userId == u' && b.postId == p') = false :=
          Bool.eq_false_iff.mpr hany
        have hstep : bookmarkStep st (.add freshId u' p') =
            st ++ [⟨freshId, u', p'⟩] := by
          simp [bookmarkStep, addBookmarkModel, hval, hbm, hanyf]
        rw [hstep]
        by_cases hm : u' = u ∧ p' = p
        · have hany2 : st.any (fun b => b.userId == u && b.postId == p) = false := by
            rw [← hm.1, ← hm.2]; exact hanyf
          have hzero : ¬ 0 < countPair st u p :=
            (any_iff_filter_pos st _).not.mp (by simp [hany2])
          have hsing : (List.filter (fun b => b.userId == u && b.postId == p)
              [(⟨freshId, u', p'⟩ : BookmarkRec)]) = [⟨freshId, u', p'⟩] := by
            simp [hm.1, hm.2]
          unfold countPair at hzero ⊢
          rw [List.filter_append, List.length_append, hsing]
          simp only [List.length_cons, List.length_nil]
          omega
        · have hpred : ((u' == u) && (p' == p)) = false := by
            rcases not_and_or.mp hm with h1 | h1 <;> simp [h1]
          have hsing : (List.filter (fun b => b.userId == u && b.postId == p)
              [(⟨freshId, u', p'⟩ : BookmarkRec)]) = [] := by
            simp only [List.filter_cons, List.filter_nil]
            simp [hpred]
          unfold countPair at h ⊢
          rw [List.filter_append, List.length_append, hsing]
          simpa using h
  | remove u' p' =>
    by_cases hval : u' = "" ∨ p' = ""
    · simp [bookmarkStep, removeBookmarkModel, hval, h]
    · cases hfind : st.find? (fun b => b.userId == u' && b.postId == p') with
      | none => simp [bookmarkStep, removeBookmarkModel, hval, hfind, h]
      | some b =>
        have hstep : bookmarkStep st (.remove u' p') =
            st.eraseP (fun b' => b'.id == b.id) := by
          simp [bookmarkStep, removeBookmarkModel, hval, hfind]
        rw [hstep]
        calc countPair (st.eraseP (fun b' => b'.id == b.id)) u p
            ≤ countPair st u p :=
              (((List.eraseP_sublist st).filter _).length_le)
          _ ≤ 1 := h

/-- Claim C9: for a (userId, postId) pair with nonempty ids, addBookmark
fails with the already-bookmarked domain error whenever a bookmark of the
pair exists, and any sequence of sequential add/remove calls keeps at most
one bookmark document for the pair (starting from a store holding at most
one, e.g. the empty store). -/
theorem claim_C9 (u p : String) (hu : u ≠ "") (hp : p ≠ "") :
    (∀ st freshId, 1 ≤ countPair st u p →
      addBookmarkModel st freshId u p = .error "이미 북마크된 게시물입니다.") ∧
    (∀ (st : List BookmarkRec) (ops : List BookmarkOp), countPair st u p ≤ 1 →
      countPair (runBookmarkOps st ops) u p ≤ 1) := by
  constructor
  · intro st freshId hpos
    have hb : isBookmarkedModel st u p = true := by
      unfold isBookmarkedModel
      rw [if_neg (by tauto)]
      exact (any_iff_filter_pos st _).mpr (by unfold countPair at hpos; omega)
    simp [addBookmarkModel, hu, hp, hb]
  · intro st ops
    induction ops generalizing st with
    | nil => intro h; simpa [runBookmarkOps] using h
    | cons op rest ih =>
      intro h
      have hstep := bookmarkStep_countPair_le u p st op h
      simpa [runBookmarkOps] using ih (bookmarkStep st op) hstep

/-- Witness for claim C9: the pair (u1, p1); adding twice fails the second
time, and a concrete add/add/remove sequence from the empty store keeps the
count at most one. -/
theorem claim_C9_witness :
    ("u1" : String) ≠ "" ∧ ("p1" : String) ≠ "" ∧
    1 ≤ countPair [⟨"b1", "u1", "p1"⟩] "u1" "p1" ∧
    addBookmarkModel [⟨"b1", "u1", "p1"⟩] "b2" "u1" "p1" =
      .error "이미 북마크된 게시물입니다." ∧
    countPair (runBookmarkOps []
      [.add "b1" "u1" "p1", .add "b2" "u1" "p1", .remove "u1" "p1"]) "u1" "p1" ≤ 1 :=
  ⟨by decide, by decide, by decide,
    (claim_C9 "u1" "p1" (by decide) (by decide)).1 [⟨"b1", "u1", "p1"⟩] "b2"
      (by decide),
    (claim_C9 "u1" "p1" (by decide) (by decide)).2 [] _ (by decide)⟩

/-- Invariant tying a post's stored commentCount to the comment documents:
every comment references the post and the count equals their number. -/
def commentInv (p : String) (st : CommentStore) : Prop :=
  (∀ cm ∈ st.comments, cm.postId = p) ∧
    lookupField st.posts p = some (st.comments.length : Int)

theorem commentStep_inv (p : String) (st : CommentStore) (op : CommentOp)
    (hop : commentOpPostId op = p) (hinv : commentInv p st) :
    commentInv p (commentStep st op) := by
  obtain ⟨hall, hcount⟩ := hinv
  cases op with
  | create freshId postId content an aid =>
    have hpid : postId = p := hop
    subst hpid
    by_cases hval : postId = "" ∨ content = "" ∨ aid = ""
    · simp [commentStep, createCommentModel, hval]
      exact ⟨hall, hcount⟩
    · have hstep : commentStep st (.create freshId postId content an aid) =
          { posts := setField st.posts postId ((st.comments.length : Int) + 1),
            comments := st.comments ++ [⟨freshId, postId, content, an, aid⟩] } := by
        simp [commentStep, createCommentModel, hval, hcount]
      rw [hstep]
      constructor
      · intro cm hcm
        rcases List.mem_append.mp hcm with hcm | hcm
        · exact hall cm hcm
        · simp at hcm
          simp [hcm]
      · simp only [lookupField_setField_self, List.length_append,
          List.length_cons, List.length_nil]
        congr 1
  | del commentId postId userId =>
    have hpid : postId = p := hop
    subst hpid
    cases hfind : st.comments.find? (fun c => c.id == commentId) with
    | none =>
      simp [commentStep, deleteCommentModel, hfind]
      exact ⟨hall, hcount⟩
    | some c =>
      by_cases hauth : c.authorId ≠ userId
      · simp [commentStep, deleteCommentModel, hfind, hauth]
        exact ⟨hall, hcount⟩
      · have hmem : c ∈ st.comments := List.mem_of_find?_eq_some hfind
        have hpc := List.find?_some hfind
        have hlen : (st.comments.eraseP (fun c' => c'.id == commentId)).length + 1 =
            st.comments.length := List.length_eraseP_add_one hmem hpc
        have hstep : commentStep st (.del commentId postId userId) =
            { posts := setField st.posts postId ((st.comments.length : Int) - 1),
              comments := st.comments.eraseP (fun c' => c'.id == commentId) } := by
          simp [commentStep, deleteCommentModel, hfind, hauth, hcount]
      
        rw [hstep]
        constructor
        · intro cm hcm
          exact hall cm ((List.eraseP_sublist st.comments).subset hcm)
        · simp only [lookupField_setField_self]
          congr 1
          omega

theorem runCommentOps_inv (p : String) (ops : List CommentOp)
    (hops : ∀ op ∈ ops, commentOpPostId op = p) :
    ∀ st : CommentStore, commentInv p st → commentInv p (runCommentOps st ops) := by
  induction ops with
  | nil => intro st h; simpa [runCommentOps] using h
  | cons op rest ih =>
    intro st h
    have h1 := commentStep_inv p st op (hops op (List.mem_cons_self _ _)) h
    have := ih (fun o ho => hops o (List.mem_cons_of_mem _ ho)) (commentStep st op) h1
    simpa [runCommentOps] using this

/-- Claim C3: starting from a post `p` with commentCount 0 and no comments,
after any sequence of sequential createComment and deleteComment calls
against `p` (each successful create inserting one comment and incrementing
the count in one transaction, each successful delete removing one and
decrementing it), the stored commentCount of `p` equals the number of
comment documents that remain referencing `p`. -/
theorem claim_C3 (p : String) (ops : List CommentOp)
    (hops : ∀ op ∈ ops, commentOpPostId op = p) :
    lookupField (runCommentOps ⟨[(p, 0)], []⟩ ops).posts p =
      some (((runCommentOps ⟨[(p, 0)], []⟩ ops).comments.filter
        (fun c => c.postId == p)).length : Int) := by
  have hinit : commentInv p ⟨[(p, 0)], []⟩ := by
    constructor
    · intro cm hcm; simp at hcm
    · simp [lookupField]
  have hfinal := runCommentOps_inv p ops hops _ hinit
  obtain ⟨hall, hcount⟩ := hfinal
  have hfilter : (runCommentOps ⟨[(p, 0)], []⟩ ops).comments.filter
      (fun c => c.postId == p) = (runCommentOps ⟨[(p, 0)], []⟩ ops).comments := by
    rw [List.filter_eq_self]
    intro a ha
    simp [hall a ha]
  rw [hfilter]
  exact hcount

/-- Witness for claim C3: two creations and one deletion against post
`post1`, ending with count 1 and one remaining comment. -/
theorem claim_C3_witness :
    (∀ op ∈ ([.create "c1" "post1" "hi" "A" "u1",
      .create "c2" "post1" "yo" "B" "u2",
      .del "c1" "post1" "u1"] : List CommentOp), commentOpPostId op = "post1") ∧
    lookupField (runCommentOps ⟨[("post1", 0)], []⟩
      [.create "c1" "post1" "hi" "A" "u1",
        .create "c2" "post1" "yo" "B" "u2",
        .del "c1" "post1" "u1"]).posts "post1" =
      some (((runCommentOps ⟨[("post1", 0)], []⟩
        [.create "c1" "post1" "hi" "A" "u1",
          .create "c2" "post1" "yo" "B" "u2",
          .del "c1" "post1" "u1"]).comments.filter
            (fun c => c.postId == "post1")).length : Int) :=
  ⟨by decide,
    claim_C3 "post1"
      [.create "c1" "post1" "hi" "A" "u1",
        .create "c2" "post1" "yo" "B" "u2",
        .del "c1" "post1" "u1"] (by decide)⟩

theorem adminRetryLoop_step_retry {α : Type} (core : Nat → Except String α)
    (wrap : String → String) (fb : String) (fuel attempts : Nat) (m : String)
    (hc : core (attempts + 1) = .error m) (hlt : attempts + 1 < 5) :
    adminRetryLoop 5 core wrap fb (fuel + 1) attempts =
      adminRetryLoop 5 core wrap fb fuel (attempts + 1) := by
  have h5 : ¬ (5 ≤ attempts + 1) := by omega
  cases hsub : containsSub m "resource-exhausted" <;>
    simp [adminRetryLoop, hc, hsub, hlt, h5]

theorem adminRetryLoop_step_final {α : Type} (core : Nat → Except String α)
    (wrap : String → String) (fb : String) (fuel : Nat) (m : String)
    (hc : core 5 = .error m) :
    adminRetryLoop 5 core wrap fb (fuel + 1) 4 = (5, .error (wrap m)) := by
  cases hsub : containsSub m "resource-exhausted" <;>
    simp [adminRetryLoop, hc, hsub]

theorem adminRetryLoop_error_run {α : Type} (core : Nat → Except String α)
    (wrap : String → String) (fb : String) (msgs : Nat → String)
    (h : ∀ a, 1 ≤ a → a ≤ 5 → core a = .error (msgs a)) :
    adminRetryLoop 5 core wrap fb 5 0 = (5, .error (wrap (msgs 5))) := by
  rw [show (5 : Nat) = 4 + 1 from rfl,
    adminRetryLoop_step_retry core wrap fb 4 0 (msgs 1) (h 1 (by omega) (by omega))
      (by omega),
    adminRetryLoop_step_retry core wrap fb 3 1 (msgs 2) (h 2 (by omega) (by omega))
      (by omega),
    adminRetryLoop_step_retry core wrap fb 2 2 (msgs 3) (h 3 (by omega) (by omega))
      (by omega),
    adminRetryLoop_step_retry core wrap fb 1 3 (msgs 4) (h 4 (by omega) (by omega))
      (by omega),
    adminRetryLoop_step_final core wrap fb 0 (msgs 5) (h 5 (by omega) (by omega))]

theorem fetchPostsByCategoryLoop_transient {α : Type} (category : String)
    (oracle : Nat → Except StoreErr α) (errs : Nat → StoreErr)
    (herr : ∀ a, oracle a = .error (errs a))
    (hni : ∀ a, isIndexError (errs a) = false) :
    fetchPostsByCategoryLoop category oracle 3 0 =
      (3, .error (category ++ " 카테고리 게시물을 가져오지 못했습니다. 잠시 후 다시 시도해주세요.")) := by
  have h1 : ¬ (MAX_RETRY_COUNT_READ ≤ 1) := by simp [MAX_RETRY_COUNT_READ]
  have h2 : ¬ (MAX_RETRY_COUNT_READ ≤ 2) := by simp [MAX_RETRY_COUNT_READ]
  have h3 : MAX_RETRY_COUNT_READ ≤ 3 := by simp [MAX_RETRY_COUNT_READ]
  simp [fetchPostsByCategoryLoop, herr 1, herr 2, herr 3, hni 1, hni 2, hni 3,
    h1, h2, h3]

theorem fetchPostsByCategoryLoop_index {α : Type} (category : String)
    (oracle : Nat → Except StoreErr α) (e : StoreErr)
    (he : oracle 1 = .error e) (hie : isIndexError e = true) :
    fetchPostsByCategoryLoop category oracle 3 0 =
      (1, .error (category ++ " 카테고리 조회를 위한 " ++ indexNeededMessage e)) := by
  simp [fetchPostsByCategoryLoop, he, hie]

/-- Live admin session used by the concrete admin-mutation scenarios
(expires at 1000000, far after the scenario time 100). -/
def liveAdminSession : Admin := ⟨"admin", true, 0, 1000000⟩

/-- Counterexample to claim C4 as stated: an admin category mutation
(reorderCategories) whose store fails every attempt with a missing-index
configuration error is attempted 5 times, not exactly once — the admin
retry loop does not special-case index errors. -/
theorem claim_C4_counterexample :
    (reorderCategoriesModel (some liveAdminSession) 100
      (fun _ => some ⟨"failed-precondition", "The query requires an index."⟩)
      ⟨some ⟨[], 0⟩, []⟩ []).1 = 5 ∧
    (5 : Nat) ≠ 1 := by
  constructor
  · rfl
  · decide

/-- Claim C4 (amended): read-path fetchers attempt exactly `maxAttempts = 3`
times against an operation that always fails with a transient (non-index)
error and then propagate a final error; `fetchPostsByCategory` attempts
exactly once against a missing-index configuration error and rethrows a
descriptive configuration message; admin category mutations attempt exactly
`maxAttempts = 5` times against any persistently failing store — including
one failing with missing-index errors, which they do not special-case — and
then propagate the wrapped final error with the store unchanged. -/
theorem claim_C4 {α : Type} :
    (∀ (category : String) (oracleAll oracle : Nat → Except StoreErr α)
      (errs : Nat → StoreErr), ¬(category = "" ∨ category = "all") →
      (∀ a, oracle a = .error (errs a)) →
      (∀ a, isIndexError (errs a) = false) →
      fetchPostsByCategoryModel category oracleAll oracle =
        (3, .error (category ++ " 카테고리 게시물을 가져오지 못했습니다. 잠시 후 다시 시도해주세요."))) ∧
    (∀ (category : String) (oracleAll oracle : Nat → Except StoreErr α)
      (e : StoreErr), ¬(category = "" ∨ category = "all") →
      oracle 1 = .error e → isIndexError e = true →
      fetchPostsByCategoryModel category oracleAll oracle =
        (1, .error (category ++ " 카테고리 조회를 위한 " ++ indexNeededMessage e))) ∧
    (∀ (session : Option Admin) (now : Nat) (oracle : Nat → Option StoreErr)
      (st : CatStore) (l : List CategoryItem) (errs : Nat → StoreErr),
      isAdminAuthenticated now session = true →
      (∀ a, oracle a = some (errs a)) →
      reorderCategoriesModel session now oracle st l =
        (5, st, .error ("카테고리 순서 변경 중 오류가 발생했습니다: " ++ (errs 5).msg))) := by
  refine ⟨?_, ?_, ?_⟩
  · intro category oracleAll oracle errs hcat herr hni
    rw [fetchPostsByCategoryModel, if_neg hcat]
    exact fetchPostsByCategoryLoop_transient category oracle errs herr hni
  · intro category oracleAll oracle e hcat he hie
    rw [fetchPostsByCategoryModel, if_neg hcat]
    exact fetchPostsByCategoryLoop_index category oracle e he hie
  · intro session now oracle st l errs hauth horacle
    rw [reorderCategoriesModel, if_neg (by simp [hauth])]
    rw [show MAX_RETRY_COUNT_ADMIN = 5 from rfl]
    rw [adminRetryLoop_error_run _ _ _ (fun a => (errs a).msg)
      (fun a _ _ => by rw [horacle a])]
    rfl

/-- Witness for claim C4: concrete transient and index-error oracles on the
`tech` category query and on an admin reorder. -/
theorem claim_C4_witness :
    (¬(("tech" : String) = "" ∨ ("tech" : String) = "all")) ∧
    fetchPostsByCategoryModel "tech"
      (fun _ => .error ⟨"unavailable", "network down"⟩)
      (fun _ => (.error ⟨"unavailable", "network down"⟩ : Except StoreErr Nat)) =
      (3, .error ("tech" ++ " 카테고리 게시물을 가져오지 못했습니다. 잠시 후 다시 시도해주세요.")) ∧
    fetchPostsByCategoryModel "tech"
      (fun _ => .error ⟨"failed-precondition", "The query requires an index."⟩)
      (fun _ => (.error ⟨"failed-precondition", "The query requires an index."⟩ :
        Except StoreErr Nat)) =
      (1, .error ("tech" ++ " 카테고리 조회를 위한 " ++
        indexNeededMessage ⟨"failed-precondition", "The query requires an index."⟩)) ∧
    reorderCategoriesModel (some liveAdminSession) 100
      (fun _ => some ⟨"unavailable", "network down"⟩) ⟨some ⟨[], 0⟩, []⟩ [] =
      (5, ⟨some ⟨[], 0⟩, []⟩,
        .error ("카테고리 순서 변경 중 오류가 발생했습니다: " ++ "network down")) :=
  by
  have hni : isIndexError ⟨"unavailable", "network down"⟩ = false := by decide
  have hie : isIndexError ⟨"failed-precondition", "The query requires an index."⟩ =
      true := by decide
  refine ⟨by decide, ?_, ?_, ?_⟩
  · exact (claim_C4 (α := Nat)).1 "tech" _ _
      (fun _ => ⟨"unavailable", "network down"⟩) (by decide) (fun _ => rfl)
      (fun _ => hni)
  · exact (claim_C4 (α := Nat)).2.1 "tech" _ _
      ⟨"failed-precondition", "The query requires an index."⟩ (by decide) rfl hie
  · exact (claim_C4 (α := Nat)).2.2 (some liveAdminSession) 100 _
      ⟨some ⟨[], 0⟩, []⟩ [] (fun _ => ⟨"unavailable", "network down"⟩) (by decide)
      (fun _ => rfl)

/-- Settings store with one category `a` named `A`, for the claim C5
analysis. -/
def dupNameStore : CatStore := ⟨some ⟨[⟨"a", "A", none⟩], 0⟩, []⟩

/-- Counterexample to claim C5 as stated: adding a category whose name `A`
collides with the existing category (a pure validation failure, the store
succeeding on every attempt) is retried — the loop runs all 5 attempts
instead of surfacing the error immediately on the first attempt. -/
theorem claim_C5_counterexample :
    (addCategoryModel (some liveAdminSession) 100 (fun _ => none) dupNameStore
      "A" none).1 = 5 ∧ (5 : Nat) ≠ 1 := by
  constructor
  · rfl
  · decide

/-- Claim C5 (amended): malformed backup JSON is surfaced to the caller
immediately on the first attempt without retry and without mutation, but
category validation failures (duplicate id or name, empty slug,
non-permutation reorder list) thrown inside the admin retry loop are
retried until the 5-attempt budget is exhausted and only then surfaced,
wrapped in the generic failure message, still without mutation. -/
theorem claim_C5 :
    (∀ (session : Option Admin) (now : Nat) (st : CatStore) (name : String)
      (icon : Option String) (m : String),
      isAdminAuthenticated now session = true →
      addCategoryCore now st name icon = .error m →
      addCategoryModel session now (fun _ => none) st name icon =
        (5, st, .error ("카테고리 추가 중 오류가 발생했습니다: " ++ m))) ∧
    (∀ (session : Option Admin) (now : Nat) (st : CatStore)
      (l : List CategoryItem) (m : String),
      isAdminAuthenticated now session = true →
      reorderCategoriesCore now st l = .error m →
      reorderCategoriesModel session now (fun _ => none) st l =
        (5, st, .error ("카테고리 순서 변경 중 오류가 발생했습니다: " ++ m))) ∧
    (∀ (session : Option Admin) (now : Nat) (st : BackupStore)
      (colls : List String) (ow db : Bool),
      isAdminAuthenticated now session = true →
      restoreDataModel session now st none colls ow db =
        (st, .error "데이터 복원 중 오류가 발생했습니다: 올바른 JSON 형식이 아닙니다. 백업 파일을 확인해주세요.")) := by
  refine ⟨?_, ?_, ?_⟩
  · intro session now st name icon m hauth hcore
    rw [addCategoryModel, if_neg (by simp [hauth])]
    rw [show MAX_RETRY_COUNT_ADMIN = 5 from rfl]
    rw [adminRetryLoop_error_run _ _ _ (fun _ => m) (fun a _ _ => by simp [hcore])]
    rfl
  · intro session now st l m hauth hcore
    rw [reorderCategoriesModel, if_neg (by simp [hauth])]
    rw [show MAX_RETRY_COUNT_ADMIN = 5 from rfl]
    rw [adminRetryLoop_error_run _ _ _ (fun _ => m) (fun a _ _ => by simp [hcore])]
    rfl
  · intro session now st colls ow db hauth
    simp [restoreDataModel, hauth]

/-- Witness for claim C5: the duplicate name `A`, a reorder list replacing
`a` with an unknown id `b`, and a malformed restore payload. -/
theorem claim_C5_witness :
    isAdminAuthenticated 100 (some liveAdminSession) = true ∧
    addCategoryCore 100 dupNameStore "A" none =
      .error "ID a는 이미 사용 중입니다. 다른 카테고리 이름을 선택해주세요." ∧
    addCategoryModel (some liveAdminSession) 100 (fun _ => none) dupNameStore
      "A" none = (5, dupNameStore,
        .error ("카테고리 추가 중 오류가 발생했습니다: " ++
          "ID a는 이미 사용 중입니다. 다른 카테고리 이름을 선택해주세요.")) ∧
    reorderCategoriesModel (some liveAdminSession) 100 (fun _ => none)
      dupNameStore [⟨"b", "B", none⟩] = (5, dupNameStore,
        .error ("카테고리 순서 변경 중 오류가 발생했습니다: " ++
          "카테고리 ID a가 누락되었습니다. 모든 기존 카테고리를 포함해야 합니다.")) ∧
    restoreDataModel (some liveAdminSession) 100 [] none DEFAULT_COLLECTIONS
      true false = ([],
        .error "데이터 복원 중 오류가 발생했습니다: 올바른 JSON 형식이 아닙니다. 백업 파일을 확인해주세요.") :=
  ⟨by decide, rfl,
    claim_C5.1 (some liveAdminSession) 100 dupNameStore "A" none _ (by decide) rfl,
    claim_C5.2.1 (some liveAdminSession) 100 dupNameStore [⟨"b", "B", none⟩] _
      (by decide) rfl,
    claim_C5.2.2 (some liveAdminSession) 100 [] DEFAULT_COLLECTIONS true false
      (by decide)⟩

/-- Two-category settings store for the claim C2 analysis. -/
def twoCatStore : CatStore :=
  ⟨some ⟨[⟨"a", "A", none⟩, ⟨"b", "B", none⟩], 0⟩, []⟩

/-- Counterexample to claim C2 as stated: the proposed list
`[a, a, b]` duplicates the existing id `a`, so it is not a permutation of
the stored id set `[a, b]`, yet reorderCategories accepts it (the check
compares id sets, not multiplicities) and writes the duplicated array. -/
theorem claim_C2_counterexample :
    reorderCategoriesModel (some liveAdminSession) 100 (fun _ => none)
      twoCatStore [⟨"a", "A", none⟩, ⟨"a", "A", none⟩, ⟨"b", "B", none⟩] =
      (1, ⟨some ⟨[⟨"a", "A", none⟩, ⟨"a", "A", none⟩, ⟨"b", "B", none⟩], 100⟩, []⟩,
        .ok true) ∧
    ¬ (([⟨"a", "A", none⟩, ⟨"a", "A", none⟩, ⟨"b", "B", none⟩] :
        List CategoryItem).map CategoryItem.id).Perm
      ((([⟨"a", "A", none⟩, ⟨"b", "B", none⟩]) : List CategoryItem).map
        CategoryItem.id) := by
  constructor
  · rfl
  · intro h
    have := h.length_eq
    simp at this

/-- Claim C2 (amended): with the store healthy, reorderCategories succeeds
(in one attempt, writing the proposed array) iff the proposed list's id set
equals the stored categories' id set — every stored id appears in the list
and every listed id is stored; multiplicity is not checked, so lists
duplicating an existing id pass.  When the check fails, the call ends in an
error after the 5 retry attempts with the stored settings document
unchanged. -/
theorem claim_C2 (session : Option Admin) (now : Nat) (st : CatStore)
    (sd : SettingsDoc) (l : List CategoryItem)
    (hauth : isAdminAuthenticated now session = true)
    (hsd : st.settings = some sd) :
    ((∀ i ∈ sd.categories.map CategoryItem.id, i ∈ l.map CategoryItem.id) ∧
      (∀ i ∈ l.map CategoryItem.id, i ∈ sd.categories.map CategoryItem.id) →
      reorderCategoriesModel session now (fun _ => none) st l =
        (1, ⟨some ⟨l, now⟩, st.posts⟩, .ok true)) ∧
    (¬ ((∀ i ∈ sd.categories.map CategoryItem.id, i ∈ l.map CategoryItem.id) ∧
      (∀ i ∈ l.map CategoryItem.id, i ∈ sd.categories.map CategoryItem.id)) →
      (reorderCategoriesModel session now (fun _ => none) st l).1 = 5 ∧
      (reorderCategoriesModel session now (fun _ => none) st l).2.1 = st ∧
      ∃ m, (reorderCategoriesModel session now (fun _ => none) st l).2.2 =
        .error m) := by
  constructor
  · intro ⟨hfw, hbw⟩
    have h1 : (sd.categories.map CategoryItem.id).find?
        (fun i => !((l.map (fun c => c.id)).contains i)) = none := by
      rw [List.find?_eq_none]
      intro i hi
      simp only [Bool.not_eq_true', Bool.not_eq_false]
      exact List.elem_iff.mpr (hfw i (by simpa using hi))
    have h2 : (l.map CategoryItem.id).find?
        (fun i => !((sd.categories.map (fun c => c.id)).contains i)) = none := by
      rw [List.find?_eq_none]
      intro i hi
      simp only [Bool.not_eq_true', Bool.not_eq_false]
      exact List.elem_iff.mpr (hbw i (by simpa using hi))
    have hcore : reorderCategoriesCore now st l =
        .ok ({ st with settings := some ⟨l, now⟩ }, true) := by
      rw [reorderCategoriesCore, hsd]
      simp only [h1, h2]
    rw [reorderCategoriesModel, if_neg (by simp [hauth]),
      show MAX_RETRY_COUNT_ADMIN = 5 from rfl]
    show adminOutcome st (adminRetryLoop 5 _ _ _ (4 + 1) 0) = _
    rw [adminRetryLoop]
    simp only [Nat.zero_add, hcore]
    rfl
  · intro hcond
    have hcore : ∃ m, reorderCategoriesCore now st l = .error m := by
      rw [reorderCategoriesCore, hsd]
      cases h1 : (sd.categories.map (fun c => c.id)).find?
          (fun i => !((l.map (fun c => c.id)).contains i)) with
      | some i => exact ⟨_, by simp only [h1]; rfl⟩
      | none =>
        cases h2 : (l.map (fun c => c.id)).find?
            (fun i => !((sd.categories.map (fun c => c.id)).contains i)) with
        | some i => exact ⟨_, by simp only [h1, h2]; rfl⟩
        | none =>
          exfalso
          apply hcond
          constructor
          · intro i hi
            have := List.find?_eq_none.mp h1 i (by simpa using hi)
            simpa [List.elem_iff] using this
          · intro i hi
            have := List.find?_eq_none.mp h2 i (by simpa using hi)
            simpa [List.elem_iff] using this
    obtain ⟨m, hm⟩ := hcore
    have hrun : reorderCategoriesModel session now (fun _ => none) st l =
        (5, st, .error ("카테고리 순서 변경 중 오류가 발생했습니다: " ++ m)) := by
      rw [reorderCategoriesModel, if_neg (by simp [hauth]),
        show MAX_RETRY_COUNT_ADMIN = 5 from rfl]
      rw [adminRetryLoop_error_run _ _ _ (fun _ => m) (fun a _ _ => by simp [hm])]
      rfl
    rw [hrun]
    exact ⟨rfl, rfl, _, rfl⟩

/-- Witness for claim C2: reversing the two stored categories succeeds in
one attempt; a list missing `a` fails after 5 attempts without mutation. -/
theorem claim_C2_witness :
    isAdminAuthenticated 100 (some liveAdminSession) = true ∧
    twoCatStore.settings = some ⟨[⟨"a", "A", none⟩, ⟨"b", "B", none⟩], 0⟩ ∧
    reorderCategoriesModel (some liveAdminSession) 100 (fun _ => none)
      twoCatStore [⟨"b", "B", none⟩, ⟨"a", "A", none⟩] =
      (1, ⟨some ⟨[⟨"b", "B", none⟩, ⟨"a", "A", none⟩], 100⟩, []⟩, .ok true) ∧
    (reorderCategoriesModel (some liveAdminSession) 100 (fun _ => none)
      twoCatStore [⟨"b", "B", none⟩]).1 = 5 ∧
    (reorderCategoriesModel (some liveAdminSession) 100 (fun _ => none)
      twoCatStore [⟨"b", "B", none⟩]).2.1 = twoCatStore := by
  refine ⟨by decide, rfl, ?_, ?_, ?_⟩
  · exact (claim_C2 (some liveAdminSession) 100 twoCatStore
      ⟨[⟨"a", "A", none⟩, ⟨"b", "B", none⟩], 0⟩ _ (by decide) rfl).1 (by decide)
  · exact ((claim_C2 (some liveAdminSession) 100 twoCatStore
      ⟨[⟨"a", "A", none⟩, ⟨"b", "B", none⟩], 0⟩ _ (by decide) rfl).2
        (by decide)).1
  · exact ((claim_C2 (some liveAdminSession) 100 twoCatStore
      ⟨[⟨"a", "A", none⟩, ⟨"b", "B", none⟩], 0⟩ _ (by decide) rfl).2
        (by decide)).2.1

/-- Claim C1: with the store healthy, an authenticated admin, the settings
document present, pairwise-distinct nonempty category ids, and `c` the id
of a stored category: deleteCategory fails (after the retry budget) with no
mutation to the settings document or any post when at least one post
references `c` and no other category exists; otherwise it removes `c` from
the categories array and reassigns every post whose category equals `c` to
the first category of the post-deletion remaining array, refreshing those
posts' update stamps. -/
theorem claim_C1 (session : Option Admin) (now : Nat) (st : CatStore)
    (sd : SettingsDoc) (c : String)
    (hauth : isAdminAuthenticated now session = true)
    (hsd : st.settings = some sd)
    (hnd : (sd.categories.map CategoryItem.id).Nodup)
    (hne : ∀ cat ∈ sd.categories, cat.id ≠ "")
    (hmem : c ∈ sd.categories.map CategoryItem.id) :
    (st.posts.filter (fun p0 => p0.category == c) ≠ [] ∧
      sd.categories.filter (fun cat => !(cat.id == c)) = [] →
      deleteCategoryModel session now (fun _ => none) st c =
        (5, st, .error ("카테고리 삭제 중 오류가 발생했습니다: " ++
          "게시물을 이동할 카테고리가 없습니다. 최소한 하나의 카테고리가 필요합니다."))) ∧
    (¬ (st.posts.filter (fun p0 => p0.category == c) ≠ [] ∧
      sd.categories.filter (fun cat => !(cat.id == c)) = []) →
      deleteCategoryModel session now (fun _ => none) st c =
        (1, ⟨some ⟨sd.categories.filter (fun cat => !(cat.id == c)), now⟩,
          st.posts.map (fun p0 =>
            if p0.category == c then
              { p0 with
                category := (((sd.categories.filter
                  (fun cat => !(cat.id == c))).map CategoryItem.id).headD ""),
                updatedAt := now }
            else p0)⟩, .ok true)) := by
  obtain ⟨cx, hcx⟩ := List.mem_map.mp hmem
  have hfindsome : (sd.categories.find? (fun cat => cat.id == c)).isSome := by
    rw [List.find?_isSome]
    exact ⟨cx, hcx.1, by simp [hcx.2]⟩
  obtain ⟨catDel, hfind⟩ := Option.isSome_iff_exists.mp hfindsome
  have hdelid : catDel.id = c := by simpa using List.find?_some hfind
  have hdelmem : catDel ∈ sd.categories := List.mem_of_find?_eq_some hfind
  have hfiltereq : sd.categories.filter (fun x => !(x == catDel)) =
      sd.categories.filter (fun cat => !(cat.id == c)) := by
    apply List.filter_congr
    intro x hx
    by_cases hxe : x = catDel
    · simp [hxe, hdelid]
    · have hxid : x.id ≠ c := by
        intro he
        exact hxe (List.inj_on_of_nodup_map hnd hx hdelmem (by rw [he, hdelid]))
      simp [hxe, hxid]
  have htarget_ne : ∀ ch tl, sd.categories.filter (fun cat => !(cat.id == c)) =
      ch :: tl → ch.id ≠ "" := by
    intro ch tl hR
    have : ch ∈ sd.categories.filter (fun cat => !(cat.id == c)) := by
      rw [hR]; exact List.mem_cons_self _ _
    exact hne ch (List.mem_of_mem_filter this)
  constructor
  · rintro ⟨href, hR⟩
    have hcore : deleteCategoryCore now st c =
        .error "게시물을 이동할 카테고리가 없습니다. 최소한 하나의 카테고리가 필요합니다." := by
      rw [deleteCategoryCore, hsd]
      simp only [hfind]
      rw [if_pos]
      constructor
      · have := List.length_pos.mpr href
        simpa using this
      · simp only [hR]
    rw [deleteCategoryModel, if_neg (by simp [hauth]),
      show MAX_RETRY_COUNT_ADMIN = 5 from rfl]
    rw [adminRetryLoop_error_run _ _ _
      (fun _ => "게시물을 이동할 카테고리가 없습니다. 최소한 하나의 카테고리가 필요합니다.")
      (fun a _ _ => by simp [hcore])]
    rfl
  · intro hcond
    have hcore : deleteCategoryCore now st c =
        .ok (⟨some ⟨sd.categories.filter (fun cat => !(cat.id == c)), now⟩,
          st.posts.map (fun p0 =>
            if p0.category == c then
              { p0 with
                category := (((sd.categories.filter
                  (fun cat => !(cat.id == c))).map CategoryItem.id).headD ""),
                updatedAt := now }
            else p0)⟩, true) := by
      rw [deleteCategoryCore, hsd]
      simp only [hfind]
      by_cases href : st.posts.filter (fun p0 => p0.category == c) = []
      · have hlen : ¬ (st.posts.filter (fun p0 => p0.category == c)).length > 0 := by
          simp [href]
        rw [if_neg (by intro hcc; exact hlen hcc.1)]
        have hmapid : st.posts.map (fun p0 =>
            if p0.category == c then
              { p0 with
                category := (((sd.categories.filter
                  (fun cat => !(cat.id == c))).map CategoryItem.id).headD ""),
                updatedAt := now }
            else p0) = st.posts := by
          have hnone := List.filter_eq_nil_iff.mp href
          calc st.posts.map (fun p0 =>
              if p0.category == c then
                { p0 with
                  category := (((sd.categories.filter
                    (fun cat => !(cat.id == c))).map CategoryItem.id).headD ""),
                  updatedAt := now }
              else p0)
              = st.posts.map id := by
                apply List.map_congr_left
                intro p0 hp0
                have := hnone p0 hp0
                simp only [Bool.not_eq_true] at this
                simp [this]
            _ = st.posts := List.map_id _
        rw [if_neg (by simp [href]), hfiltereq, hmapid]
      · have hlen : (st.posts.filter (fun p0 => p0.category == c)).length > 0 :=
          List.length_pos.mpr href
        have hRne : sd.categories.filter (fun cat => !(cat.id == c)) ≠ [] := by
          intro hR
          exact hcond ⟨href, hR⟩
        rw [if_neg (by
          intro hcc
          cases hRc : sd.categories.filter (fun cat => !(cat.id == c)) with
          | nil => exact hRne hRc
          | cons ch tl =>
            have h2 := hcc.2
            rw [hRc] at h2
            exact htarget_ne ch tl hRc (by simpa using h2))]
        rw [if_pos (by simpa using hlen)]
        cases hRc : sd.categories.filter (fun cat => !(cat.id == c)) with
        | nil => exact absurd hRc hRne
        | cons ch tl =>
          rw [hfiltereq, hRc]
          simp
    rw [deleteCategoryModel, if_neg (by simp [hauth]),
      show MAX_RETRY_COUNT_ADMIN = 5 from rfl]
    show adminOutcome st (adminRetryLoop 5 _ _ _ (4 + 1) 0) = _
    rw [adminRetryLoop]
    simp only [Nat.zero_add, hcore]
    rfl

/-- Scenario store of the specification: categories `general` and `tech`,
one post in `tech`. -/
def scenarioStore : CatStore :=
  ⟨some ⟨[⟨"general", "General", none⟩, ⟨"tech", "Tech", none⟩], 0⟩,
    [⟨"p1", "tech", 0⟩]⟩

/-- Witness for claim C1 on the specification's example: deleting `tech`
moves the post to `general` and removes `tech`; deleting `general`
afterwards (the only category left, with the post referencing it) fails
without mutating anything. -/
theorem claim_C1_witness :
    isAdminAuthenticated 100 (some liveAdminSession) = true ∧
    scenarioStore.settings =
      some ⟨[⟨"general", "General", none⟩, ⟨"tech", "Tech", none⟩], 0⟩ ∧
    (([⟨"general", "General", none⟩, ⟨"tech", "Tech", none⟩] :
      List CategoryItem).map CategoryItem.id).Nodup ∧
    deleteCategoryModel (some liveAdminSession) 100 (fun _ => none)
      scenarioStore "tech" =
      (1, ⟨some ⟨[⟨"general", "General", none⟩], 100⟩,
        [⟨"p1", "general", 100⟩]⟩, .ok true) ∧
    deleteCategoryModel (some liveAdminSession) 100 (fun _ => none)
      ⟨some ⟨[⟨"general", "General", none⟩], 100⟩, [⟨"p1", "general", 100⟩]⟩
      "general" =
      (5, ⟨some ⟨[⟨"general", "General", none⟩], 100⟩, [⟨"p1", "general", 100⟩]⟩,
        .error ("카테고리 삭제 중 오류가 발생했습니다: " ++
          "게시물을 이동할 카테고리가 없습니다. 최소한 하나의 카테고리가 필요합니다.")) := by
  refine ⟨by decide, rfl, by decide, ?_, ?_⟩
  · exact (claim_C1 (some liveAdminSession) 100 scenarioStore
      ⟨[⟨"general", "General", none⟩, ⟨"tech", "Tech", none⟩], 0⟩ "tech"
      (by decide) rfl (by decide) (by decide) (by decide)).2 (by decide)
  · exact (claim_C1 (some liveAdminSession) 100
      ⟨some ⟨[⟨"general", "General", none⟩], 100⟩, [⟨"p1", "general", 100⟩]⟩
      ⟨[⟨"general", "General", none⟩], 100⟩ "general"
      (by decide) rfl (by decide) (by decide) (by decide)).1 (by decide)

theorem nodupKeys_setField {α : Type} (fs : List (String × α)) (k : String)
    (v : α) (h : nodupKeys fs = true) : nodupKeys (setField fs k v) = true := by
  induction fs with
  | nil => simp [setField, nodupKeys, lookupField]
  | cons hd tl ih =>
    obtain ⟨k', w⟩ := hd
    simp only [nodupKeys, Bool.and_eq_true, Option.isNone_iff_eq_none] at h
    by_cases h' : k' = k
    · subst h'
      simp only [setField, if_pos rfl, nodupKeys, Bool.and_eq_true,
        Option.isNone_iff_eq_none]
      exact ⟨h.1, h.2⟩
    · simp only [setField, if_neg h', nodupKeys, Bool.and_eq_true,
        Option.isNone_iff_eq_none]
      exact ⟨by rw [lookupField_setField_ne _ _ h']; exact h.1, ih h.2⟩

theorem nodupKeys_removeField {α : Type} (fs : List (String × α)) (k : String)
    (h : nodupKeys fs = true) : nodupKeys (removeField fs k) = true := by
  induction fs with
  | nil => simp [removeField, nodupKeys]
  | cons hd tl ih =>
    obtain ⟨k', w⟩ := hd
    simp only [nodupKeys, Bool.and_eq_true, Option.isNone_iff_eq_none] at h
    by_cases h' : k' = k
    · simp only [removeField, if_pos h']
      exact ih h.2
    · simp only [removeField, if_neg h', nodupKeys, Bool.and_eq_true,
        Option.isNone_iff_eq_none]
      exact ⟨by rw [lookupField_removeField_ne _ h']; exact h.1, ih h.2⟩

theorem applyDateRemoval_lookup_ne (ud : Fields) {key : String}
    (h : key ≠ "date") : lookupField (applyDateRemoval ud) key = lookupField ud key := by
  unfold applyDateRemoval
  split
  · exact lookupField_removeField_ne _ h
  · rfl

theorem applyCommentsRename_lookup_ne (ud : Fields) {key : String}
    (h1 : key ≠ "comments") (h2 : key ≠ "commentCount") :
    lookupField (applyCommentsRename ud) key = lookupField ud key := by
  unfold applyCommentsRename
  split
  · rw [lookupField_removeField_ne _ h1, lookupField_setField_ne _ _ h2]
  · rfl

theorem applyDateRemoval_nodup (ud : Fields) (h : nodupKeys ud = true) :
    nodupKeys (applyDateRemoval ud) = true := by
  unfold applyDateRemoval
  split
  · exact nodupKeys_removeField _ _ h
  · exact h

theorem applyCommentsRename_nodup (ud : Fields) (h : nodupKeys ud = true) :
    nodupKeys (applyCommentsRename ud) = true := by
  unfold applyCommentsRename
  split
  · exact nodupKeys_removeField _ _ (nodupKeys_setField _ _ _ h)
  · exact h

theorem buildUpdateData_lookup_id (pd : Fields) (now : Ts) :
    lookupField (buildUpdateData pd now) "id" = none := by
  unfold buildUpdateData
  exact lookupField_removeField_self _ _

theorem buildUpdateData_lookup_createdAt (pd : Fields) (now : Ts) :
    lookupField (buildUpdateData pd now) "createdAt" = none := by
  unfold buildUpdateData
  rw [lookupField_removeField_ne _ (by decide)]
  exact lookupField_removeField_self _ _

theorem buildUpdateData_lookup_updatedAt (pd : Fields) (now : Ts) :
    lookupField (buildUpdateData pd now) "updatedAt" = some (.vts now) := by
  unfold buildUpdateData
  rw [lookupField_removeField_ne _ (by decide),
    lookupField_removeField_ne _ (by decide),
    applyCommentsRename_lookup_ne _ (by decide) (by decide),
    applyDateRemoval_lookup_ne _ (by decide)]
  exact lookupField_setField_self _ _ _

theorem buildUpdateData_lookup_other (pd : Fields) (now : Ts) {k : String}
    (hk : k ∉ (["date", "comments", "commentCount", "createdAt", "id",
      "updatedAt"] : List String)) :
    lookupField (buildUpdateData pd now) k = lookupField pd k := by
  have hdate : k ≠ "date" := fun e => hk (by simp [e])
  have hcom : k ≠ "comments" := fun e => hk (by simp [e])
  have hcc : k ≠ "commentCount" := fun e => hk (by simp [e])
  have hca : k ≠ "createdAt" := fun e => hk (by simp [e])
  have hid : k ≠ "id" := fun e => hk (by simp [e])
  have hup : k ≠ "updatedAt" := fun e => hk (by simp [e])
  unfold buildUpdateData
  rw [lookupField_removeField_ne _ hid, lookupField_removeField_ne _ hca,
    applyCommentsRename_lookup_ne _ hcom hcc, applyDateRemoval_lookup_ne _ hdate,
    lookupField_setField_ne _ _ hup]

theorem buildUpdateData_nodup (pd : Fields) (now : Ts)
    (h : nodupKeys pd = true) : nodupKeys (buildUpdateData pd now) = true := by
  unfold buildUpdateData
  exact nodupKeys_removeField _ _ (nodupKeys_removeField _ _
    (applyCommentsRename_nodup _ (applyDateRemoval_nodup _
      (nodupKeys_setField _ _ _ h))))

/-- Claim C7: updatePost never writes the caller-supplied `createdAt` or
`id` fields (the stored values are unchanged), always stamps the stored
`updatedAt` with the current time, and writes the remaining supplied fields
(outside the UI-conversion fields `date`, `comments`, `commentCount`); the
authorization check passes either because no caller uid was supplied or
because it matches the stored author. -/
theorem claim_C7 (store : List (String × Fields)) (postId : String)
    (postData doc : Fields) (userId : Option String) (now : Ts)
    (hdoc : lookupField store postId = some doc)
    (hnd : nodupKeys postData = true)
    (hu : userId = none ∨
      ∃ u, userId = some u ∧ lookupField doc "authorId" = some (.vstr u)) :
    updatePostModel store postId postData userId now =
      .ok (setField store postId (mergeFields doc (buildUpdateData postData now))) ∧
    lookupField (mergeFields doc (buildUpdateData postData now)) "createdAt" =
      lookupField doc "createdAt" ∧
    lookupField (mergeFields doc (buildUpdateData postData now)) "id" =
      lookupField doc "id" ∧
    lookupField (mergeFields doc (buildUpdateData postData now)) "updatedAt" =
      some (.vts now) ∧
    (∀ k v, k ∉ (["date", "comments", "commentCount", "createdAt", "id",
        "updatedAt"] : List String) → lookupField postData k = some v →
      lookupField (mergeFields doc (buildUpdateData postData now)) k = some v) := by
  refine ⟨?_, ?_, ?_, ?_, ?_⟩
  · rcases hu with rfl | ⟨u, rfl, hauth⟩
    · simp [updatePostModel, updatePostWrite, hdoc]
    · simp [updatePostModel, updatePostWrite, hdoc, hauth]
  · exact lookupField_mergeFields_of_none doc _ (buildUpdateData_lookup_createdAt _ _)
  · exact lookupField_mergeFields_of_none doc _ (buildUpdateData_lookup_id _ _)
  · exact lookupField_mergeFields_of_some doc _ (buildUpdateData_nodup _ _ hnd)
      (buildUpdateData_lookup_updatedAt _ _)
  · intro k v hk hv
    exact lookupField_mergeFields_of_some doc _ (buildUpdateData_nodup _ _ hnd)
      ((buildUpdateData_lookup_other _ _ hk).trans hv)

/-- Witness for claim C7: a payload trying to overwrite `createdAt` and
`id`; the stored `createdAt` survives, `updatedAt` is stamped, `title` is
written. -/
theorem claim_C7_witness :
    lookupField [("p1", [("title", Value.vstr "old"),
      ("createdAt", Value.vts ⟨2020, 5, 5, 0, 0, 0, 0⟩),
      ("authorId", Value.vstr "u1")])] "p1" =
      some [("title", Value.vstr "old"),
        ("createdAt", Value.vts ⟨2020, 5, 5, 0, 0, 0, 0⟩),
        ("authorId", Value.vstr "u1")] ∧
    nodupKeys [("title", Value.vstr "new"),
      ("createdAt", Value.vts ⟨2030, 1, 1, 0, 0, 0, 0⟩),
      ("id", Value.vstr "fake")] = true ∧
    lookupField (mergeFields
      [("title", Value.vstr "old"),
        ("createdAt", Value.vts ⟨2020, 5, 5, 0, 0, 0, 0⟩),
        ("authorId", Value.vstr "u1")]
      (buildUpdateData [("title", Value.vstr "new"),
        ("createdAt", Value.vts ⟨2030, 1, 1, 0, 0, 0, 0⟩),
        ("id", Value.vstr "fake")] ⟨2024, 6, 1, 12, 0, 0, 0⟩)) "createdAt" =
      lookupField [("title", Value.vstr "old"),
        ("createdAt", Value.vts ⟨2020, 5, 5, 0, 0, 0, 0⟩),
        ("authorId", Value.vstr "u1")] "createdAt" ∧
    lookupField (mergeFields
      [("title", Value.vstr "old"),
        ("createdAt", Value.vts ⟨2020, 5, 5, 0, 0, 0, 0⟩),
        ("authorId", Value.vstr "u1")]
      (buildUpdateData [("title", Value.vstr "new"),
        ("createdAt", Value.vts ⟨2030, 1, 1, 0, 0, 0, 0⟩),
        ("id", Value.vstr "fake")] ⟨2024, 6, 1, 12, 0, 0, 0⟩)) "updatedAt" =
      some (Value.vts ⟨2024, 6, 1, 12, 0, 0, 0⟩) :=
  ⟨rfl, rfl,
    (claim_C7 [("p1", [("title", Value.vstr "old"),
        ("createdAt", Value.vts ⟨2020, 5, 5, 0, 0, 0, 0⟩),
        ("authorId", Value.vstr "u1")])] "p1"
      [("title", Value.vstr "new"),
        ("createdAt", Value.vts ⟨2030, 1, 1, 0, 0, 0, 0⟩),
        ("id", Value.vstr "fake")]
      [("title", Value.vstr "old"),
        ("createdAt", Value.vts ⟨2020, 5, 5, 0, 0, 0, 0⟩),
        ("authorId", Value.vstr "u1")]
      (some "u1") ⟨2024, 6, 1, 12, 0, 0, 0⟩ rfl rfl
      (Or.inr ⟨"u1", rfl, rfl⟩)).2.1,
    (claim_C7 [("p1", [("title", Value.vstr "old"),
        ("createdAt", Value.vts ⟨2020, 5, 5, 0, 0, 0, 0⟩),
        ("authorId", Value.vstr "u1")])] "p1"
      [("title", Value.vstr "new"),
        ("createdAt", Value.vts ⟨2030, 1, 1, 0, 0, 0, 0⟩),
        ("id", Value.vstr "fake")]
      [("title", Value.vstr "old"),
        ("createdAt", Value.vts ⟨2020, 5, 5, 0, 0, 0, 0⟩),
        ("authorId", Value.vstr "u1")]
      (some "u1") ⟨2024, 6, 1, 12, 0, 0, 0⟩ rfl rfl
      (Or.inr ⟨"u1", rfl, rfl⟩)).2.2.2.1⟩

theorem lookupField_tsToIsoFields (fs : Fields) (k : String) :
    lookupField (tsToIsoFields fs) k =
      (lookupField fs k).map convertTimestampsToISOStrings := by
  induction fs with
  | nil => simp [tsToIsoFields, lookupField]
  | cons hd tl ih =>
    obtain ⟨k', v⟩ := hd
    by_cases h : k' = k
    · simp [tsToIsoFields, lookupField, h]
    · simp [tsToIsoFields, lookupField, h, ih]

theorem nodupKeys_tsToIsoFields (fs : Fields) (h : nodupKeys fs = true) :
    nodupKeys (tsToIsoFields fs) = true := by
  induction fs with
  | nil => simp [tsToIsoFields, nodupKeys]
  | cons hd tl ih =>
    obtain ⟨k', v⟩ := hd
    simp only [nodupKeys, Bool.and_eq_true, Option.isNone_iff_eq_none] at h
    simp only [tsToIsoFields, nodupKeys, Bool.and_eq_true,
      Option.isNone_iff_eq_none]
    exact ⟨by rw [lookupField_tsToIsoFields, h.1]; rfl, ih h.2⟩

theorem lookupField_eq_some_of_mem_nodup {α : Type} {fs : List (String × α)}
    {k : String} {v : α} (hnd : nodupKeys fs = true) (hmem : (k, v) ∈ fs) :
    lookupField fs k = some v := by
  induction fs with
  | nil => simp at hmem
  | cons hd tl ih =>
    obtain ⟨k', w⟩ := hd
    simp only [nodupKeys, Bool.and_eq_true, Option.isNone_iff_eq_none] at hnd
    rcases List.mem_cons.mp hmem with h | h
    · obtain ⟨h1, h2⟩ := Prod.mk.injEq .. ▸ h
      injection h with h12
      subst h12
      simp_all [lookupField]
    · have := ih hnd.2 h
      by_cases he : k' = k
      · subst he
        have hs := lookupField_isSome_of_mem h
        rw [hnd.1] at hs
        simp at hs
      · simp [lookupField, he, this]

theorem goodFields_lookup_not_str {fs : Fields} {k : String} {v : Value}
    (hg : goodFields fs = true) (hk : dateKey k = true)
    (hl : lookupField fs k = some v) : isStr v = false := by
  induction fs with
  | nil => simp [lookupField] at hl
  | cons hd tl ih =>
    obtain ⟨k', w⟩ := hd
    simp only [goodFields, Bool.and_eq_true, Bool.or_eq_true,
      Bool.not_eq_true'] at hg
    by_cases he : k' = k
    · subst he
      simp [lookupField] at hl
      subst hl
      rcases hg.1.1 with h | h
      · rw [h] at hk; cases hk
      · exact h
    · simp only [lookupField, if_neg he] at hl
      exact ih hg.2 hl

theorem convDateField_of_good {d : Fields} {k : String}
    (hg : goodFields d = true) (hk : dateKey k = true) :
    convDateField d k = some d := by
  unfold convDateField
  cases hl : lookupField d k with
  | none => rfl
  | some v =>
    have := goodFields_lookup_not_str hg hk hl
    cases v <;> simp_all [isStr]

theorem processCollectionSpecificData_of_good (collName : String) {d : Fields}
    (hg : goodFields d = true) :
    processCollectionSpecificData collName d = some d := by
  unfold processCollectionSpecificData
  by_cases h1 : collName = "posts" ∨ collName = "comments"
  · rw [if_pos h1, convDateField_of_good hg (by decide)]
    simp only [Option.bind_eq_bind, Option.some_bind]
    exact convDateField_of_good hg (by decide)
  · rw [if_neg h1]
    by_cases h2 : collName = "settings"
    · rw [if_pos h2]
      exact convDateField_of_good hg (by decide)
    · rw [if_neg h2]

theorem backupEntryOfDoc_eq (id : String) (fields : Fields)
    (hid : lookupField fields "id" = none) (hnd : nodupKeys fields = true) :
    backupEntryOfDoc id fields = ("id", Value.vstr id) :: tsToIsoFields fields := by
  unfold backupEntryOfDoc
  have hnd' : nodupKeys (tsToIsoFields fields) = true :=
    nodupKeys_tsToIsoFields _ hnd
  have hid' : lookupField (tsToIsoFields fields) "id" = none := by
    rw [lookupField_tsToIsoFields, hid]; rfl
  have hdisj : ∀ p ∈ tsToIsoFields fields,
      lookupField [("id", Value.vstr id)] p.1 = none := by
    intro p hp
    have hs := lookupField_isSome_of_mem hp
    have hne : p.1 ≠ "id" := by
      intro e
      rw [e, hid'] at hs
      simp at hs
    simp [lookupField, hne.symm]
  rw [mergeFields_eq_append _ _ hnd' hdisj]
  rfl

theorem restoreDocModel_roundtrip (collName : String) (st : BackupStore)
    (coll : List (String × Fields)) (id : String) (fields : Fields)
    (hcoll : lookupField st collName = some coll)
    (hndcoll : nodupKeys coll = true)
    (hmem : (id, fields) ∈ coll)
    (hg : goodFields fields = true)
    (hnd : nodupKeys fields = true)
    (hid : lookupField fields "id" = none) :
    restoreDocModel collName true st (backupEntryOfDoc id fields) =
      (st, true, false) := by
  rw [backupEntryOfDoc_eq id fields hid hnd]
  have hid' : lookupField (tsToIsoFields fields) "id" = none := by
    rw [lookupField_tsToIsoFields, hid]; rfl
  have hrm : removeField (("id", Value.vstr id) :: tsToIsoFields fields) "id" =
      tsToIsoFields fields := by
    simp only [removeField, if_pos rfl]
    exact removeField_eq_self hid'
  have hrt : isoToTsFields (tsToIsoFields fields) = fields :=
    roundTripFields fields hg
  have hset1 : setField coll id fields = coll :=
    setField_eq_self_of_lookup coll (lookupField_eq_some_of_mem_nodup hndcoll hmem)
  have hset2 : setField st collName coll = st :=
    setField_eq_self_of_lookup st hcoll
  have hlook : lookupField (("id", Value.vstr id) :: tsToIsoFields fields) "id" =
      some (Value.vstr id) := by
    simp [lookupField]
  unfold restoreDocModel
  rw [hlook]
  simp only [hrm, hrt, processCollectionSpecificData_of_good collName hg,
    Bool.not_true, Bool.false_and, Bool.false_eq_true, if_false]
  unfold setDocStore
  rw [hcoll]
  show (setField st collName (setField coll id fields), true, false) =
    (st, true, false)
  rw [hset1, hset2]

theorem restoreFold_roundtrip (collName : String) (st : BackupStore)
    (coll : List (String × Fields))
    (hcoll : lookupField st collName = some coll)
    (hndcoll : nodupKeys coll = true) :
    ∀ docs : List (String × Fields),
    (∀ p ∈ docs, p ∈ coll ∧ goodFields p.2 = true ∧ nodupKeys p.2 = true ∧
      lookupField p.2 "id" = none) →
    ∀ r f : Nat,
    List.foldl
      (fun (acc : BackupStore × Nat × Nat) item =>
        let res := restoreDocModel collName true acc.1 item
        (res.1, acc.2.1 + (if res.2.1 then 1 else 0),
          acc.2.2 + (if res.2.2 then 1 else 0)))
      (st, r, f) (docs.map (fun d => backupEntryOfDoc d.1 d.2)) =
      (st, r + docs.length, f) := by
  intro docs
  induction docs with
  | nil => intro _ r f; simp
  | cons d rest ih =>
    intro h r f
    obtain ⟨id, fields⟩ := d
    obtain ⟨hm, hg, hnd, hid⟩ := h (id, fields) (List.mem_cons_self _ _)
    have hdoc := restoreDocModel_roundtrip collName st coll id fields hcoll
      hndcoll hm hg hnd hid
    rw [List.map_cons, List.foldl_cons]
    conv_lhs => arg 2; simp [hdoc]
    rw [ih (fun p hp => h p (List.mem_cons_of_mem _ hp)) (r + 1) f]
    simp only [List.length_cons, Prod.mk.injEq, true_and, and_true]
    omega

theorem restoreCollectionModel_roundtrip (collName : String) (st : BackupStore)
    (H : ∀ coll, lookupField st collName = some coll →
      nodupKeys coll = true ∧ ∀ p ∈ coll, goodFields p.2 = true ∧
        nodupKeys p.2 = true ∧ lookupField p.2 "id" = none) :
    restoreCollectionModel collName true false st
      ((fetchCollectionDocs st collName).map (fun d => backupEntryOfDoc d.1 d.2)) =
      (st, (fetchCollectionDocs st collName).length, 0) := by
  unfold restoreCollectionModel
  cases hc : lookupField st collName with
  | none =>
    unfold fetchCollectionDocs
    rw [hc]
    simp
  | some coll =>
    obtain ⟨hnd, hdocs⟩ := H coll hc
    unfold fetchCollectionDocs
    rw [hc]
    have := restoreFold_roundtrip collName st coll hc hnd coll
      (fun p hp => ⟨hp, hdocs p hp⟩) 0 0
    simpa using this

theorem lookupField_map_self {α : Type} (g : String → α) :
    ∀ (cols : List String) (c : String), c ∈ cols →
    lookupField (cols.map (fun c => (c, g c))) c = some (g c) := by
  intro cols
  induction cols with
  | nil => intro c hc; simp at hc
  | cons c' rest ih =>
    intro c hc
    by_cases he : c' = c
    · simp [lookupField, he]
    · rcases List.mem_cons.mp hc with h | h
      · exact absurd h.symm he
      · simp [lookupField, he, ih c h]

theorem restoreDataFold_roundtrip (st : BackupStore) (b : BackupObj) :
    ∀ cols : List String,
    (∀ c ∈ cols, lookupField b.data c =
      some ((fetchCollectionDocs st c).map (fun d => backupEntryOfDoc d.1 d.2))) →
    (∀ c ∈ cols, ∀ coll, lookupField st c = some coll →
      nodupKeys coll = true ∧ ∀ p ∈ coll, goodFields p.2 = true ∧
        nodupKeys p.2 = true ∧ lookupField p.2 "id" = none) →
    ∀ acc : List (String × Nat),
    List.foldl (restoreDataStep b true false) (st, acc) cols =
      (st, acc ++ cols.map (fun c => (c, (fetchCollectionDocs st c).length))) := by
  intro cols
  induction cols with
  | nil => intro _ _ acc; simp
  | cons c rest ih =>
    intro hb H acc
    have hbc := hb c (List.mem_cons_self _ _)
    have hcoll := restoreCollectionModel_roundtrip c st (H c (List.mem_cons_self _ _))
    have hstep : restoreDataStep b true false (st, acc) c =
        (st, acc ++ [(c, (fetchCollectionDocs st c).length)]) := by
      simp [restoreDataStep, hbc, hcoll]
    rw [List.foldl_cons, hstep,
      ih (fun c' hc' => hb c' (List.mem_cons_of_mem _ hc'))
        (fun c' hc' => H c' (List.mem_cons_of_mem _ hc'))
        (acc ++ [(c, (fetchCollectionDocs st c).length)])]
    simp

def roundStore : BackupStore :=
  [("posts", [("p1", [("title", Value.vstr "hello"),
    ("createdAt", Value.vts ⟨2024, 1, 2, 3, 4, 5, 6⟩)])])]

def noteStore : BackupStore :=
  [("posts", [("p1", [("title", Value.vstr "hi"),
    ("note", Value.vstr "2024-01-01T00:00:00.000Z")])])]

/-- Counterexample to claim C6 as stated: the round trip does not reproduce
every document field-for-field.  A plain string field whose value merely
looks like an ISO-8601 date (here a field named `note`) is converted to a
store timestamp by the restore, so the restored store differs from the
original. -/
theorem claim_C6_counterexample :
    (restoreDataModel (some liveAdminSession) 100 noteStore
      (some (backupObjOf noteStore DEFAULT_COLLECTIONS false))
      DEFAULT_COLLECTIONS true false).1 ≠ noteStore := by
  intro heq
  have h : (restoreDataModel (some liveAdminSession) 100 noteStore
      (some (backupObjOf noteStore DEFAULT_COLLECTIONS false))
      DEFAULT_COLLECTIONS true false).1 =
      [("posts", [("p1", [("title", Value.vstr "hi"),
        ("note", Value.vts ⟨2024, 1, 1, 0, 0, 0, 0⟩)])])] := rfl
  rw [h] at heq
  simp [noteStore] at heq

/-- Claim C6 (corrected): with an authenticated admin session, restoring the
output of `backupData` over the default collections with `overwrite = true`
reproduces every document field-for-field — provided every stored document
round-trips cleanly: its keys are free of duplicates, it carries no `id`
field of its own, its timestamps are valid, and none of its plain string
fields looks like an ISO-8601 date (such a string would be turned into a
timestamp by the restore, which is the normalization the restore applies to
the ISO strings the backup produced from timestamps).  The restore reports
each collection with its restored document count and leaves the store equal
to the original. -/
theorem claim_C6 (session : Option Admin) (now : Nat) (st : BackupStore)
    (hauth : isAdminAuthenticated now session = true)
    (H : ∀ c ∈ DEFAULT_COLLECTIONS, ∀ coll, lookupField st c = some coll →
      nodupKeys coll = true ∧ ∀ p ∈ coll, goodFields p.2 = true ∧
        nodupKeys p.2 = true ∧ lookupField p.2 "id" = none) :
    backupDataModel session now st DEFAULT_COLLECTIONS false =
      .ok (backupObjOf st DEFAULT_COLLECTIONS false) ∧
    restoreDataModel session now st
      (some (backupObjOf st DEFAULT_COLLECTIONS false)) DEFAULT_COLLECTIONS
      true false =
      (st, .ok (DEFAULT_COLLECTIONS.map
        (fun c => (c, (fetchCollectionDocs st c).length)))) := by
  have hdata : (backupObjOf st DEFAULT_COLLECTIONS false).data =
      DEFAULT_COLLECTIONS.map (fun c => (c, (fetchCollectionDocs st c).map
        (fun d => backupEntryOfDoc d.1 d.2))) := rfl
  have hb : ∀ c ∈ DEFAULT_COLLECTIONS,
      lookupField (backupObjOf st DEFAULT_COLLECTIONS false).data c =
        some ((fetchCollectionDocs st c).map (fun d => backupEntryOfDoc d.1 d.2)) := by
    intro c hc
    rw [hdata]
    exact lookupField_map_self _ DEFAULT_COLLECTIONS c hc
  have hfold := restoreDataFold_roundtrip st
    (backupObjOf st DEFAULT_COLLECTIONS false) DEFAULT_COLLECTIONS hb H []
  constructor
  · simp [backupDataModel, hauth]
  · have hcond : (!(isAdminAuthenticated now session)) = false := by
      rw [hauth]; rfl
    unfold restoreDataModel
    rw [hcond]
    simp only [Bool.false_eq_true, if_false]
    rw [hfold]
    simp

/-- Witness for C6 at a concrete store: one posts document with a plain
title and a valid timestamp survives the backup / restore round trip
unchanged, with one document reported restored for the posts collection. -/
theorem claim_C6_witness :
    backupDataModel (some liveAdminSession) 100 roundStore
      DEFAULT_COLLECTIONS false =
      .ok (backupObjOf roundStore DEFAULT_COLLECTIONS false) ∧
    restoreDataModel (some liveAdminSession) 100 roundStore
      (some (backupObjOf roundStore DEFAULT_COLLECTIONS false))
      DEFAULT_COLLECTIONS true false =
      (roundStore, .ok (DEFAULT_COLLECTIONS.map
        (fun c => (c, (fetchCollectionDocs roundStore c).length)))) :=
  claim_C6 (some liveAdminSession) 100 roundStore rfl (by
    intro c hc coll hcoll
    fin_cases hc
    · have hl : lookupField roundStore "posts" =
          some [("p1", [("title", Value.vstr "hello"),
            ("createdAt", Value.vts ⟨2024, 1, 2, 3, 4, 5, 6⟩)])] := rfl
      rw [hl] at hcoll
      injection hcoll with hcoll
      subst hcoll
      refine ⟨rfl, ?_⟩
      intro p hp
      rw [List.mem_singleton] at hp
      subst hp
      exact ⟨rfl, rfl, rfl⟩
    · have hl : lookupField roundStore "comments" = none := rfl
      rw [hl] at hcoll
      exact Option.noConfusion hcoll
    · have hl : lookupField roundStore "settings" = none := rfl
      rw [hl] at hcoll
      exact Option.noConfusion hcoll
    · have hl : lookupField roundStore "bookmarks" = none := rfl
      rw [hl] at hcoll
      exact Option.noConfusion hcoll)
